import Mathlib

/-!
# Assessment wizard (frontend/src/pages/AssessmentPage.js)

A shallow embedding of the React state of `AssessmentPage` and of its event
handlers.  Each `useState` cell is a field of `WizardState`; each handler is a
function from the state it closes over to the state after the handler's
`set...` calls, together with the list of side effects it performs (toasts,
HTTP requests, navigation).  Asynchronous handlers are split at their `await`.
-/

namespace ASD

/-! ## Data model -/

/-- The `formData` object: a JavaScript object from property names to the
strings the inputs deliver; `none` stands for `undefined` (no such property). -/
abbrev FormData := String → Option String

/-- A browser `File`: its display name and its bytes. -/
structure File where
  name : String
  bytes : List Nat
  deriving DecidableEq, Repr

/-- The JavaScript Number values `parseInt` can return: an integer-valued
double (`int 0` is `+0`), `-0`, `NaN`, or an infinity. -/
inductive JSNumber where
  | nan
  | negZero
  | int (v : Int)
  | posInf
  | negInf
  deriving DecidableEq, Repr

/-- The `demographic` sub-object of the request payload. -/
structure Demographic where
  name : Option String
  age : JSNumber
  gender : JSNumber
  ethnicity : JSNumber
  country : Option String
  jaundice : JSNumber
  family_history : JSNumber
  respondent : Option String
  deriving DecidableEq, Repr

/-- The `behavioral` sub-object of the request payload. -/
structure Behavioral where
  a1_score : JSNumber
  a2_score : JSNumber
  a3_score : JSNumber
  a4_score : JSNumber
  a5_score : JSNumber
  a6_score : JSNumber
  a7_score : JSNumber
  a8_score : JSNumber
  a9_score : JSNumber
  a10_score : JSNumber
  deriving DecidableEq, Repr

/-- The object `handleSubmit` posts to `/assess`. -/
structure Payload where
  demographic : Demographic
  behavioral : Behavioral
  image_filename : Option String
  deriving DecidableEq, Repr

/-- Side effects a handler performs, in program order. -/
inductive Effect where
  | toastError (msg : String)
  | toastSuccess (msg : String)
  | postUploadImage (file : File)
  | postAssess (payload : Payload)
  | navigate (path : String)
  | consoleError
  deriving DecidableEq, Repr

/-- The `useState` cells of `AssessmentPage`. -/
structure WizardState where
  step : Nat
  loading : Bool
  imageFile : Option File
  uploadedFilename : Option String
  showCamera : Bool
  captureMethod : Option String
  formData : FormData

/-- The 18 keys of the initial `formData` literal. -/
def formKeys : List String :=
  ["name", "age", "gender", "ethnicity", "country", "jaundice", "family_history",
   "respondent", "a1_score", "a2_score", "a3_score", "a4_score", "a5_score",
   "a6_score", "a7_score", "a8_score", "a9_score", "a10_score"]

/-- The initial `formData`: every one of the 18 keys maps to `""`. -/
def initialFormData : FormData :=
  fun k => if k ∈ formKeys then some "" else none

/-- The state after the first render: the arguments of the `useState` calls. -/
def initialState : WizardState :=
  { step := 1
    loading := false
    imageFile := none
    uploadedFilename := none
    showCamera := false
    captureMethod := none
    formData := initialFormData }

/-! ## Wizard State Controller -/

/-- `handleChange(field, value)`:
`setFormData(prev => ({ ...prev, [field]: value }))`. -/
def handleChange (s : WizardState) (field value : String) : WizardState :=
  { s with formData := fun k => if k = field then some value else s.formData k }

/-- The `required` array of `validateStep` for `step === 1`. -/
def requiredStep1 : List String :=
  ["name", "age", "gender", "ethnicity", "country", "jaundice", "family_history",
   "respondent"]

/-- The `questions` array of `validateStep` for `step === 2`. -/
def questionsStep2 : List String :=
  ["a1_score", "a2_score", "a3_score", "a4_score", "a5_score"]

/-- The `questions` array of `validateStep` for `step === 3`. -/
def questionsStep3 : List String :=
  ["a6_score", "a7_score", "a8_score", "a9_score", "a10_score"]

/-- `validateStep()`: `every(field => formData[field] !== "")` over the array
of the current step, `true` for any step other than 1, 2, 3. -/
def validateStep (s : WizardState) : Bool :=
  if s.step = 1 then
    requiredStep1.all (fun field => s.formData field != some "")
  else if s.step = 2 then
    questionsStep2.all (fun field => s.formData field != some "")
  else if s.step = 3 then
    questionsStep3.all (fun field => s.formData field != some "")
  else
    true

/-- The toast text of `handleNext`. -/
def requiredFieldsMessage : String := "Please fill in all required fields"

/-- `handleNext()`. -/
def handleNext (s : WizardState) : WizardState × List Effect :=
  if !validateStep s then
    (s, [Effect.toastError requiredFieldsMessage])
  else if s.step < 4 then
    ({ s with step := s.step + 1 }, [])
  else
    (s, [])

/-- `handleBack()`. -/
def handleBack (s : WizardState) : WizardState × List Effect :=
  if s.step > 1 then ({ s with step := s.step - 1 }, []) else (s, [])

/-! ## `parseInt`

The ECMAScript built-in `parseInt(string)` with `radix` undefined, following
the steps of its specification: trim leading white space, read a sign, strip
a `0x`/`0X` marker (radix 16, otherwise radix 10), take the longest run of
radix digits, return `NaN` if that run is empty, and otherwise convert the
mathematical integer to the nearest Number (IEEE 754 binary64, ties to even).
Where the specification lets an implementation approximate a decimal run of
more than 20 significant digits, the exact integer is taken. -/

/-- The code points of ECMAScript `WhiteSpace` and `LineTerminator`. -/
def isStrWhiteSpaceChar (c : Char) : Bool :=
  let n := c.toNat
  n = 0x9 || n = 0xA || n = 0xB || n = 0xC || n = 0xD || n = 0x20 || n = 0xA0 ||
  n = 0x1680 || (0x2000 ≤ n && n ≤ 0x200A) || n = 0x2028 || n = 0x2029 ||
  n = 0x202F || n = 0x205F || n = 0x3000 || n = 0xFEFF

/-- The value of a digit `0-9`, `a-z`, `A-Z` in radix 36. -/
def digitValue (c : Char) : Option Nat :=
  let n := c.toNat
  if 48 ≤ n ∧ n ≤ 57 then some (n - 48)
  else if 97 ≤ n ∧ n ≤ 122 then some (n - 87)
  else if 65 ≤ n ∧ n ≤ 90 then some (n - 55)
  else none

/-- Whether `c` is a digit of radix `R`. -/
def isRadixDigit (R : Nat) (c : Char) : Bool :=
  match digitValue c with
  | some d => decide (d < R)
  | none => false

/-- The integer denoted by the digit run `Z` in radix `R`. -/
def radixValue (R : Nat) (Z : List Char) : Nat :=
  Z.foldl (fun acc c => acc * R + (digitValue c).getD 0) 0

/-- Number of binary digits of `m`, by halving at most `fuel` times. -/
def bitLengthAux : Nat → Nat → Nat
  | 0, _ => 0
  | fuel + 1, m => if m = 0 then 0 else bitLengthAux fuel (m / 2) + 1

/-- Number of binary digits of `m` (`0` for `0`). -/
def bitLength (m : Nat) : Nat := bitLengthAux m m

/-- The binary64 value nearest to the positive integer `m`, ties to even;
`none` when the rounded value is `2 ^ 1024` or more (overflow to infinity). -/
def roundToDouble (m : Nat) : Option Nat :=
  if bitLength m ≤ 53 then some m
  else
    let e := bitLength m - 53
    let q := m / 2 ^ e
    let r := m % 2 ^ e
    let half := 2 ^ (e - 1)
    let q1 := if half < r ∨ (r = half ∧ q % 2 = 1) then q + 1 else q
    if 1024 < bitLength q1 + e then none else some (q1 * 2 ^ e)

/-- The Number for `sign × mathInt` (the last two steps of `parseInt`). -/
def toNumber (negative : Bool) (mathInt : Nat) : JSNumber :=
  if mathInt = 0 then (if negative then JSNumber.negZero else JSNumber.int 0)
  else
    match roundToDouble mathInt with
    | some v => JSNumber.int (if negative then -(v : Int) else (v : Int))
    | none => if negative then JSNumber.negInf else JSNumber.posInf

/-- Steps 3-4 of `parseInt`: whether the sign is negative, and the rest after a
leading `-` or `+`. -/
def readSign (S : List Char) : Bool × List Char :=
  match S with
  | '-' :: t => (true, t)
  | '+' :: t => (false, t)
  | _ => (false, S)

/-- Steps 5-6 of `parseInt` with `radix` undefined: radix 16 after a `0x` or `0X`
marker, which is removed, radix 10 otherwise. -/
def readRadix (S : List Char) : Nat × List Char :=
  match S with
  | '0' :: 'x' :: t => (16, t)
  | '0' :: 'X' :: t => (16, t)
  | _ => (10, S)

/-- The body of `parseInt` on the characters of its argument. -/
def parseIntChars (input : List Char) : JSNumber :=
  let S := input.dropWhile isStrWhiteSpaceChar
  let (negative, S) := readSign S
  let (R, S) := readRadix S
  let Z := S.takeWhile (isRadixDigit R)
  if Z = [] then JSNumber.nan
  else toNumber negative (radixValue R Z)

/-- The call `parseInt(v)` for a property value `v`: `undefined` is first
converted to the string `"undefined"`. -/
def parseInt (string : Option String) : JSNumber :=
  match string with
  | some str => parseIntChars str.data
  | none => parseIntChars "undefined".data

/-! ## Submission Coordinator -/

/-- Outcome of an awaited `axios.post`: the promise resolves with the field of
`response.data` the handler reads, or rejects. -/
inductive HttpResult where
  | ok (data : String)
  | error
  deriving DecidableEq, Repr

/-- The `payload` literal of `handleSubmit`. -/
def buildPayload (s : WizardState) : Payload :=
  { demographic :=
      { name := s.formData "name"
        age := parseInt (s.formData "age")
        gender := parseInt (s.formData "gender")
        ethnicity := parseInt (s.formData "ethnicity")
        country := s.formData "country"
        jaundice := parseInt (s.formData "jaundice")
        family_history := parseInt (s.formData "family_history")
        respondent := s.formData "respondent" }
    behavioral :=
      { a1_score := parseInt (s.formData "a1_score")
        a2_score := parseInt (s.formData "a2_score")
        a3_score := parseInt (s.formData "a3_score")
        a4_score := parseInt (s.formData "a4_score")
        a5_score := parseInt (s.formData "a5_score")
        a6_score := parseInt (s.formData "a6_score")
        a7_score := parseInt (s.formData "a7_score")
        a8_score := parseInt (s.formData "a8_score")
        a9_score := parseInt (s.formData "a9_score")
        a10_score := parseInt (s.formData "a10_score") }
    image_filename := s.uploadedFilename }

/-- `handleSubmit()` up to its `await`: `setLoading(true)`, build the payload,
issue `axios.post(API + "/assess", payload)`. -/
def handleSubmitStart (s : WizardState) : WizardState × List Effect :=
  ({ s with loading := true }, [Effect.postAssess (buildPayload s)])

/-- `handleSubmit()` after its `await`: the `try` continuation on a resolved
request, the `catch` block on a rejected one, then the `finally` block. -/
def handleSubmitSettle (s : WizardState) (r : HttpResult) : WizardState × List Effect :=
  match r with
  | HttpResult.ok id =>
    ({ s with loading := false },
     [Effect.toastSuccess "Assessment completed successfully",
      Effect.navigate ("/results/" ++ id)])
  | HttpResult.error =>
    ({ s with loading := false },
     [Effect.toastError "Failed to submit assessment", Effect.consoleError])

/-- `handleSubmit()` run to completion with no other event in between. -/
def handleSubmit (s : WizardState) (r : HttpResult) : WizardState × List Effect :=
  let started := handleSubmitStart s
  let settled := handleSubmitSettle started.1 r
  (settled.1, started.2 ++ settled.2)

/-! ## Media Acquisition Adapter -/

/-- `handleImageUpload(file)` up to its `await`. -/
def handleImageUploadStart (s : WizardState) (file : Option File) :
    WizardState × List Effect :=
  match file with
  | none => (s, [])
  | some f => ({ s with imageFile := some f }, [Effect.postUploadImage f])

/-- `handleImageUpload(file)` after its `await`; `data` of a resolved request
is `response.data.filename`. -/
def handleImageUploadSettle (s : WizardState) (r : HttpResult) :
    WizardState × List Effect :=
  match r with
  | HttpResult.ok filename =>
    ({ s with uploadedFilename := some filename, showCamera := false },
     [Effect.toastSuccess "Image uploaded successfully"])
  | HttpResult.error => (s, [Effect.toastError "Failed to upload image"])

/-- `handleFileUpload(e)`, with `files` the list `e.target.files`. -/
def handleFileUpload (s : WizardState) (files : List File) : WizardState × List Effect :=
  match files.head? with
  | some file => handleImageUploadStart s (some file)
  | none => (s, [])

/-- `handleCameraCapture(file)`. -/
def handleCameraCapture (s : WizardState) (file : Option File) :
    WizardState × List Effect :=
  handleImageUploadStart s file

/-- The `onClick` of the remove-image button. -/
def removeImage (s : WizardState) : WizardState :=
  { s with imageFile := none, uploadedFilename := none }

/-! ## The page as an event-driven machine

Each user action or network completion is handled to completion before the
next one.  A control that is not rendered, or rendered disabled, cannot fire
its handler. -/

/-- The `id`s of the `questions` array, in order. -/
def questionIds : List String :=
  ["a1_score", "a2_score", "a3_score", "a4_score", "a5_score",
   "a6_score", "a7_score", "a8_score", "a9_score", "a10_score"]

/-- The fields whose inputs the JSX renders at a step: the eight inputs of
the `step === 1` block, `questions.slice(0, 5)` at step 2 and
`questions.slice(5, 10)` at step 3; the `step === 4` block has none. -/
def shownFields (step : Nat) : List String :=
  if step = 1 then
    ["name", "age", "gender", "ethnicity", "country", "jaundice", "family_history",
     "respondent"]
  else if step = 2 then questionIds.take 5
  else if step = 3 then (questionIds.drop 5).take 5
  else []

/-- The `useState` cells of `CameraCapture` (components/CameraCapture.js);
`imgSrc` holds the bytes the screenshot data URL encodes. -/
structure CameraState where
  imgSrc : Option (List Nat)
  facingMode : String
  deriving DecidableEq, Repr

/-- The state of `CameraCapture` when it mounts. -/
def initialCamera : CameraState := { imgSrc := none, facingMode := "user" }

/-- `capture()`: `setImgSrc(webcamRef.current.getScreenshot())`; the screenshot
is `null` while the webcam is not ready. -/
def capture (c : CameraState) (screenshot : Option (List Nat)) : CameraState :=
  { c with imgSrc := screenshot }

/-- `retake()`. -/
def retake (c : CameraState) : CameraState := { c with imgSrc := none }

/-- `switchCamera()`. -/
def switchCamera (c : CameraState) : CameraState :=
  { c with facingMode := if c.facingMode = "user" then "environment" else "user" }

/-- `confirm()`: with an `imgSrc`, the file that the chain
`fetch(imgSrc).then(res => res.blob()).then(blob => onCapture(file))` will
hand to `onCapture` once it runs; nothing without an `imgSrc`. -/
def confirm (c : CameraState) : Option File :=
  match c.imgSrc with
  | some src => some { name := "camera-capture.jpg", bytes := src }
  | none => none

/-- The page together with its environment: the camera overlay's own state,
the files of Use Photo clicks whose promise chain has not yet called
`onCapture`, the requests that were issued and have not settled yet, and the
route `navigate` was called with. -/
structure Sys where
  page : WizardState
  camera : CameraState
  pendingCaptures : List File
  pendingUploads : List File
  pendingSubmits : List Payload
  navigated : Option String

/-- The page right after mounting. -/
def initialSys : Sys :=
  { page := initialState, camera := initialCamera, pendingCaptures := [],
    pendingUploads := [], pendingSubmits := [], navigated := none }

/-- What the user and the network can do to the page. -/
inductive Event where
  | change (field value : String)
  | next
  | back
  | openCamera
  | closeCamera
  | switchCamera
  | capture (screenshot : Option (List Nat))
  | retake
  | confirm
  | cameraCapture (i : Nat)
  | fileUpload (files : List File)
  | removeImage
  | uploadSettled (i : Nat) (r : HttpResult)
  | submit
  | submitSettled (i : Nat) (r : HttpResult)
  deriving DecidableEq, Repr

/-- Whether the page offers the event: the rendering conditions of the JSX
(`step === n &&`, `!imageFile ?`, `step < 4 ?`, `disabled=`, `showCamera &&`,
and `!imgSrc ?` inside the overlay), and for a completion that the request, or
the promise chain of a Use Photo click, is outstanding.  The chain of a Use
Photo click calls `onCapture` whenever it runs, also after the overlay was
closed. -/
def enabled (σ : Sys) : Event → Bool
  | Event.change field _ => decide (field ∈ shownFields σ.page.step)
  | Event.next => decide (σ.page.step < 4)
  | Event.back => !decide (σ.page.step = 1)
  | Event.openCamera => decide (σ.page.step = 4) && σ.page.imageFile.isNone
  | Event.closeCamera => σ.page.showCamera
  | Event.switchCamera => σ.page.showCamera && σ.camera.imgSrc.isNone
  | Event.capture _ => σ.page.showCamera && σ.camera.imgSrc.isNone
  | Event.retake => σ.page.showCamera && σ.camera.imgSrc.isSome
  | Event.confirm => σ.page.showCamera && σ.camera.imgSrc.isSome
  | Event.cameraCapture i => decide (i < σ.pendingCaptures.length)
  | Event.fileUpload _ => decide (σ.page.step = 4) && σ.page.imageFile.isNone
  | Event.removeImage => decide (σ.page.step = 4) && σ.page.imageFile.isSome
  | Event.uploadSettled i _ => decide (i < σ.pendingUploads.length)
  | Event.submit => !decide (σ.page.step < 4) && !σ.page.loading
  | Event.submitSettled i _ => decide (i < σ.pendingSubmits.length)

/-- Record the requests and the navigation among a handler's effects. -/
def absorb (σ : Sys) : List Effect → Sys
  | [] => σ
  | Effect.postUploadImage f :: rest =>
    absorb { σ with pendingUploads := σ.pendingUploads ++ [f] } rest
  | Effect.postAssess p :: rest =>
    absorb { σ with pendingSubmits := σ.pendingSubmits ++ [p] } rest
  | Effect.navigate path :: rest => absorb { σ with navigated := some path } rest
  | _ :: rest => absorb σ rest

/-- Run a handler's result into the system. -/
def commit (σ : Sys) (r : WizardState × List Effect) : Sys :=
  absorb { σ with page := r.1 } r.2

/-- The handler each event runs.  Opening the camera mounts `CameraCapture`
with a fresh state unless it is already mounted. -/
def fire (σ : Sys) : Event → Sys
  | Event.change field value => { σ with page := handleChange σ.page field value }
  | Event.next => commit σ (handleNext σ.page)
  | Event.back => commit σ (handleBack σ.page)
  | Event.openCamera =>
    { σ with page := { σ.page with showCamera := true }
             camera := if σ.page.showCamera then σ.camera else initialCamera }
  | Event.closeCamera => { σ with page := { σ.page with showCamera := false } }
  | Event.switchCamera => { σ with camera := switchCamera σ.camera }
  | Event.capture screenshot => { σ with camera := capture σ.camera screenshot }
  | Event.retake => { σ with camera := retake σ.camera }
  | Event.confirm =>
    match confirm σ.camera with
    | some file => { σ with pendingCaptures := σ.pendingCaptures ++ [file] }
    | none => σ
  | Event.cameraCapture i =>
    match σ.pendingCaptures[i]? with
    | some file =>
      commit { σ with pendingCaptures := σ.pendingCaptures.eraseIdx i }
        (handleCameraCapture σ.page (some file))
    | none => σ
  | Event.fileUpload files => commit σ (handleFileUpload σ.page files)
  | Event.removeImage => { σ with page := removeImage σ.page }
  | Event.uploadSettled i r =>
    commit { σ with pendingUploads := σ.pendingUploads.eraseIdx i }
      (handleImageUploadSettle σ.page r)
  | Event.submit => commit σ (handleSubmitStart σ.page)
  | Event.submitSettled i r =>
    commit { σ with pendingSubmits := σ.pendingSubmits.eraseIdx i }
      (handleSubmitSettle σ.page r)

/-- One event: it runs its handler if the page is mounted and offers it, and
does nothing otherwise. -/
def stepEvent (σ : Sys) (e : Event) : Sys :=
  if σ.navigated.isNone && enabled σ e then fire σ e else σ

/-- A sequence of events from a state. -/
def run (σ : Sys) (events : List Event) : Sys :=
  events.foldl stepEvent σ

/-- The fields `validateStep` requires at a step: the array it tests there. -/
def requiredFields (step : Nat) : List String :=
  if step = 1 then requiredStep1
  else if step = 2 then questionsStep2
  else if step = 3 then questionsStep3
  else []

/-! ## Concrete drafts -/

/-- The draft of the concrete scenario: Alex, 7, ten answers `"1"`. -/
def alexEntries : List (String × String) :=
  [("name", "Alex"), ("age", "7"), ("gender", "0"), ("ethnicity", "3"),
   ("country", "US"), ("jaundice", "1"), ("family_history", "0"),
   ("respondent", "Parent"), ("a1_score", "1"), ("a2_score", "1"),
   ("a3_score", "1"), ("a4_score", "1"), ("a5_score", "1"), ("a6_score", "1"),
   ("a7_score", "1"), ("a8_score", "1"), ("a9_score", "1"), ("a10_score", "1")]

/-- The Alex draft as a `formData` object. -/
def alexFormData : FormData := fun k => alexEntries.lookup k

/-- The wizard at `step` holding the Alex draft, nothing else touched. -/
def alexAt (step : Nat) : WizardState :=
  { initialState with step := step, formData := alexFormData }

/-- Every key of `keys` holds a string other than the empty one. -/
def Filled (fd : FormData) (keys : List String) : Prop :=
  ∀ k ∈ keys, ∃ v, fd k = some v ∧ v ≠ ""

/-- The gating invariant of the wizard: the step is one of 1..4, the 18 keys
of the draft are all present, and the fields of every step already passed are
filled. -/
def WizardInv (s : WizardState) : Prop :=
  1 ≤ s.step ∧ s.step ≤ 4 ∧
  (∀ k ∈ formKeys, (s.formData k).isSome = true) ∧
  (1 < s.step → Filled s.formData requiredStep1) ∧
  (2 < s.step → Filled s.formData questionsStep2) ∧
  (3 < s.step → Filled s.formData questionsStep3)

/-- The user fills in the Alex draft step by step and presses Next three times. -/
def alexSession : List Event :=
  [Event.change "name" "Alex", Event.change "age" "7", Event.change "gender" "0",
   Event.change "ethnicity" "3", Event.change "country" "US",
   Event.change "jaundice" "1", Event.change "family_history" "0",
   Event.change "respondent" "Parent", Event.next,
   Event.change "a1_score" "1", Event.change "a2_score" "1",
   Event.change "a3_score" "1", Event.change "a4_score" "1",
   Event.change "a5_score" "1", Event.next,
   Event.change "a6_score" "1", Event.change "a7_score" "1",
   Event.change "a8_score" "1", Event.change "a9_score" "1",
   Event.change "a10_score" "1", Event.next]

/-- The keys `handleSubmit` passes through `parseInt`. -/
def numericKeys : List String :=
  ["age", "gender", "ethnicity", "jaundice", "family_history", "a1_score",
   "a2_score", "a3_score", "a4_score", "a5_score", "a6_score", "a7_score",
   "a8_score", "a9_score", "a10_score"]

/-- The numeric property of a payload that is built from the draft key `k`. -/
def payloadNumber (p : Payload) (k : String) : Option JSNumber :=
  if k = "age" then some p.demographic.age
  else if k = "gender" then some p.demographic.gender
  else if k = "ethnicity" then some p.demographic.ethnicity
  else if k = "jaundice" then some p.demographic.jaundice
  else if k = "family_history" then some p.demographic.family_history
  else if k = "a1_score" then some p.behavioral.a1_score
  else if k = "a2_score" then some p.behavioral.a2_score
  else if k = "a3_score" then some p.behavioral.a3_score
  else if k = "a4_score" then some p.behavioral.a4_score
  else if k = "a5_score" then some p.behavioral.a5_score
  else if k = "a6_score" then some p.behavioral.a6_score
  else if k = "a7_score" then some p.behavioral.a7_score
  else if k = "a8_score" then some p.behavioral.a8_score
  else if k = "a9_score" then some p.behavioral.a9_score
  else if k = "a10_score" then some p.behavioral.a10_score
  else none

/-- The payload whose numeric properties are the integers `n k` and whose
`name`, `country`, `respondent` and `image_filename` are those of the state. -/
def integerPayload (s : WizardState) (n : String → Int) : Payload :=
  { demographic :=
      { name := s.formData "name"
        age := JSNumber.int (n "age")
        gender := JSNumber.int (n "gender")
        ethnicity := JSNumber.int (n "ethnicity")
        country := s.formData "country"
        jaundice := JSNumber.int (n "jaundice")
        family_history := JSNumber.int (n "family_history")
        respondent := s.formData "respondent" }
    behavioral :=
      { a1_score := JSNumber.int (n "a1_score")
        a2_score := JSNumber.int (n "a2_score")
        a3_score := JSNumber.int (n "a3_score")
        a4_score := JSNumber.int (n "a4_score")
        a5_score := JSNumber.int (n "a5_score")
        a6_score := JSNumber.int (n "a6_score")
        a7_score := JSNumber.int (n "a7_score")
        a8_score := JSNumber.int (n "a8_score")
        a9_score := JSNumber.int (n "a9_score")
        a10_score := JSNumber.int (n "a10_score") }
    image_filename := s.uploadedFilename }

/-- The integers of the Alex draft. -/
def alexNumbers (k : String) : Int :=
  if k = "age" then 7
  else if k = "ethnicity" then 3
  else if k = "gender" ∨ k = "family_history" then 0
  else 1

/-- The Alex draft on the last step with `age` set to the digits of `2 ^ 53 + 1`. -/
def bigAgeDraft : WizardState :=
  handleChange (alexAt 4) "age" "9007199254740993"

/-- The integers of `bigAgeDraft`. -/
def bigAgeNumbers (k : String) : Int :=
  if k = "age" then 9007199254740993 else alexNumbers k

/-- The Alex draft on the last step with `age` set to `"abc"`. -/
def textAgeDraft : WizardState :=
  handleChange (alexAt 4) "age" "abc"

/-- A decimal digit character, `0` to `9`. -/
def IsDecimalDigit (c : Char) : Prop := 48 ≤ c.toNat ∧ c.toNat ≤ 57

/-- `handleImageUpload(file)` run to completion with no other event in
between; `r` is the outcome of the upload request, which is not issued for an
absent file. -/
def handleImageUpload (s : WizardState) (file : Option File) (r : HttpResult) :
    WizardState × List Effect :=
  match file with
  | none => (s, [])
  | some f =>
    let started := handleImageUploadStart s (some f)
    let settled := handleImageUploadSettle started.1 r
    (settled.1, started.2 ++ settled.2)

/-- A file chosen in the file picker. -/
def pickedFile : File := { name := "face.jpg", bytes := [255, 216, 255] }

/-- The bytes of a webcam screenshot. -/
def screenshot : List Nat := [255, 216, 255]

/-- The file `confirm` of `CameraCapture` hands to `onCapture` for that
screenshot. -/
def cameraFile : File := { name := "camera-capture.jpg", bytes := screenshot }

/-- The Alex session, then the camera is opened, a photo is taken, Use Photo
is pressed and its file reaches `onCapture`: one upload is in flight and the
overlay is still open. -/
def cameraUploadSession : List Event :=
  alexSession ++ [Event.openCamera, Event.capture (some screenshot), Event.confirm,
    Event.cameraCapture 0]

/-- The Alex session, then a file is picked and its upload fails. -/
def failedUploadSession : List Event :=
  alexSession ++ [Event.fileUpload [pickedFile], Event.uploadSettled 0 HttpResult.error]

/-- The camera upload session, then Use Photo is pressed again while the
first upload is in flight, and its file reaches `onCapture` too. -/
def doubleConfirmSession : List Event :=
  cameraUploadSession ++ [Event.confirm, Event.cameraCapture 0]

/-- The camera upload session, then Use Photo is pressed again, the overlay is
closed, and only then the second file reaches `onCapture`. -/
def lateCaptureSession : List Event :=
  cameraUploadSession ++ [Event.confirm, Event.closeCamera, Event.cameraCapture 0]

/-- The Alex session, then a file is picked, removed, and a file is picked again. -/
def recaptureSession : List Event :=
  alexSession ++ [Event.fileUpload [pickedFile], Event.removeImage,
    Event.fileUpload [pickedFile]]

/-- The Alex session, then the submit button is pressed twice in a row. -/
def doubleSubmitSession : List Event :=
  alexSession ++ [Event.submit, Event.submit]

/-- At most one evaluation request is outstanding, and none unless the busy
flag is set. -/
def SubmitInv (σ : Sys) : Prop :=
  σ.pendingSubmits.length ≤ 1 ∧ (σ.page.loading = false → σ.pendingSubmits = [])

/-- The camera upload session, then the overlay is closed, and the upload
succeeds afterwards. -/
def closeDuringUploadSession : List Event :=
  cameraUploadSession ++ [Event.closeCamera, Event.uploadSettled 0 (HttpResult.ok "u1.jpg")]

/-- The Alex session, then a file is picked, removed while its upload is in
flight, and the upload succeeds afterwards. -/
def removeDuringUploadSession : List Event :=
  alexSession ++ [Event.fileUpload [pickedFile], Event.removeImage,
    Event.uploadSettled 0 (HttpResult.ok "u1.jpg")]

/-! ## JavaScript Numbers in the analysis views

A finite Number is the rational it denotes.  Every arithmetic operation
returns the binary64 value nearest to the exact result, ties to even: `fl`.
Infinities, `NaN` and the sign of zero are not represented, and `fl` does not
overflow: it agrees with binary64 for results of magnitude below `2 ^ 1024`. -/

/-- The integer nearest to `x`, ties to the even one. -/
def roundHalfEven (x : ℚ) : ℤ :=
  if x - ⌊x⌋ < 1 / 2 then ⌊x⌋
  else if 1 / 2 < x - ⌊x⌋ then ⌊x⌋ + 1
  else if ⌊x⌋ % 2 = 0 then ⌊x⌋
  else ⌊x⌋ + 1

/-- The exponent of the last binary64 digit of a number of the size of `x`:
52 below its leading bit, and never below the subnormal spacing. -/
def ulpExp (x : ℚ) : ℤ := max (Int.log 2 |x| - 52) (-1074)

/-- The binary64 value nearest to `x`, ties to even. -/
def fl (x : ℚ) : ℚ := roundHalfEven (x / 2 ^ ulpExp x) * 2 ^ ulpExp x

/-- `Math.round(y)`: the integer nearest to `y`, ties upwards. -/
def mathRound (y : ℚ) : ℤ := ⌊y + 1 / 2⌋

/-- The expression `Math.round(x * 1000) / 1000`. -/
def round3 (x : ℚ) : ℚ := fl ((mathRound (fl (x * 1000)) : ℚ) / 1000)

/-- The expression `Math.round(x * 100) / 100`. -/
def round2 (x : ℚ) : ℚ := fl ((mathRound (fl (x * 100)) : ℚ) / 100)

/-! ## ModelAnalysisPage.js: chart data builders -/

/-- A metrics object of the model-metrics response: property name to Number,
`none` for a property that is missing or `null`. -/
abbrev Metrics := String → Option ℚ

/-- One bar group of the metrics chart; `none` in `train` is `null`. -/
structure MetricRow where
  name : Option String
  test : Option ℚ
  train : Option ℚ
  deriving DecidableEq, Repr

/-- `buildMetricsChartData(testMetrics, trainMetrics)`; an absent argument is
`none`. -/
def buildMetricsChartData (testMetrics trainMetrics : Option Metrics) : List MetricRow :=
  match testMetrics with
  | none => []
  | some tm =>
    let names := ["Accuracy", "Precision", "Recall", "F1 Score"]
    let keys := ["accuracy", "precision", "recall", "f1_score"]
    (keys.enum.map (fun ik =>
      ({ name := names[ik.1]?
         test := some (round3 ((tm ik.2).getD 0))
         train := match trainMetrics with
           | some trm => some (round3 ((trm ik.2).getD 0))
           | none => none } : MetricRow))).filter (fun d => d.test.isSome)

/-- The argument of `buildFeatureImportanceData`: `null` or `undefined`, a
value whose `typeof` is not `"object"`, or an object given by its
`Object.entries`. -/
inductive FeatureInput where
  | absent
  | nonObject
  | object (entries : List (String × ℚ))
  deriving DecidableEq, Repr

/-- One bar of the feature-importance chart. -/
structure FeatureRow where
  name : String
  value : ℚ
  deriving DecidableEq, Repr

/-- The comparator `(a, b) => b.value - a.value` puts `a` no later than `b`
when its result is not positive. -/
def byValueDesc (a b : FeatureRow) : Prop := b.value - a.value ≤ 0

instance : DecidableRel byValueDesc := fun a b =>
  inferInstanceAs (Decidable (b.value - a.value ≤ 0))

/-- `buildFeatureImportanceData(fi)`; `sort` is the stable sort by the
comparator, `slice(0, 12)` keeps the first twelve. -/
def buildFeatureImportanceData (fi : FeatureInput) : List FeatureRow :=
  match fi with
  | FeatureInput.absent => []
  | FeatureInput.nonObject => []
  | FeatureInput.object entries =>
    ((entries.map (fun nv => ({ name := nv.1, value := round3 nv.2 } : FeatureRow))).insertionSort
      byValueDesc).take 12

/-- The `roc_curve` object: its `fpr` and `tpr` arrays, `none` when missing. -/
structure RocCurve where
  fpr : Option (List ℚ)
  tpr : Option (List ℚ)
  deriving DecidableEq, Repr

/-- One point of the ROC chart. -/
structure RocPoint where
  fpr : ℚ
  tpr : ℚ
  deriving DecidableEq, Repr

/-- `buildRocData(roc)`. -/
def buildRocData (roc : Option RocCurve) : List RocPoint :=
  match roc with
  | none => []
  | some r =>
    match r.fpr, r.tpr with
    | some fpr, some tpr =>
      fpr.enum.map (fun ix =>
        ({ fpr := round2 ix.2, tpr := round2 ((tpr[ix.1]?).getD 0) } : RocPoint))
    | _, _ => []

/-! ## HistoryPage.js -/

/-- An assessment of the history response; `timeValue` is the time value of
`new Date(timestamp)` in milliseconds, `none` for an invalid date. -/
structure Assessment where
  id : String
  timestamp : String
  timeValue : Option Int
  deriving DecidableEq, Repr

/-- The comparator `(a, b) => new Date(b.timestamp) - new Date(a.timestamp)`;
`none` is `NaN`. -/
def compareNewestFirst (a b : Assessment) : Option Int :=
  match b.timeValue, a.timeValue with
  | some tb, some ta => some (tb - ta)
  | _, _ => none

/-- How `sort` reads the comparator: `a` stays no later than `b` when the
result is not positive, and `NaN` counts as zero.  With an invalid date the
comparator is inconsistent and the order `sort` produces is left to the
engine; this relation is meant for lists of valid dates only. -/
def newestFirst (a b : Assessment) : Prop :=
  match compareNewestFirst a b with
  | some v => v ≤ 0
  | none => True

instance : DecidableRel newestFirst := fun a b => by
  unfold newestFirst
  cases compareNewestFirst a b <;> exact inferInstance

/-- The state of `HistoryPage`. -/
structure HistoryState where
  assessments : List Assessment
  loading : Bool
  deriving DecidableEq, Repr

/-- `fetchAssessments()` run to completion from the initial state; the
argument is `response.data` of a resolved request, `none` for a rejected one. -/
def fetchAssessments (response : Option (List Assessment)) : HistoryState :=
  match response with
  | some data => { assessments := data.insertionSort newestFirst, loading := false }
  | none => { assessments := [], loading := false }

/-! ## ConfusionMatrixHeatmap.jsx -/

/-- What the component renders: the four destructured cells (`none` is
`undefined`) and `maxVal` (`none` is `NaN`). -/
structure Heatmap where
  tn : Option Nat
  fp : Option Nat
  fn : Option Nat
  tp : Option Nat
  maxVal : Option Nat
  deriving DecidableEq, Repr

/-- `Math.max(tn, fp, fn, tp, 1)` on Numbers. -/
def maxVal (tn fp fn tp : Nat) : Nat := max (max (max (max tn fp) fn) tp) 1

/-- `ConfusionMatrixHeatmap({ matrix })` for a matrix that is absent or an
array of rows of counts; `none` is the `null` return. -/
def ConfusionMatrixHeatmap (matrix : Option (List (List Nat))) : Option Heatmap :=
  match matrix with
  | none => none
  | some m =>
    if m.length ≠ 2 ∨ (m.getD 0 []).length ≠ 2 then none
    else
      let r0 := m.getD 0 []
      let r1 := m.getD 1 []
      some
        { tn := r0[0]?
          fp := r0[1]?
          fn := r1[0]?
          tp := r1[1]?
          maxVal :=
            match r0[0]?, r0[1]?, r1[0]?, r1[1]? with
            | some tn, some fp, some fn, some tp => some (maxVal tn fp fn tp)
            | _, _, _, _ => none }

/-- The style of a cell. -/
structure CellStyle where
  alpha : ℚ
  white : Bool
  deriving DecidableEq, Repr

/-- `cellStyle(value)` for a given `maxVal`: the alpha of the background
colour, `0.2 + (value / maxVal) * 0.8`, and whether the text is white,
`value / maxVal > 0.5`. -/
def cellStyle (maxVal value : Nat) : CellStyle :=
  { alpha := fl (fl (1 / 5) + fl (fl ((value : ℚ) / (maxVal : ℚ)) * fl (4 / 5)))
    white := decide (1 / 2 < fl ((value : ℚ) / (maxVal : ℚ))) }

/-- A test-metrics object that has `accuracy` and `precision` only. -/
def sampleMetrics : Metrics := fun k =>
  if k = "accuracy" then some (9 / 10) else if k = "precision" then some (7 / 8) else none

/-- Three feature importances. -/
def sampleFeatures : List (String × ℚ) :=
  [("A1_Score", 1 / 8), ("A9_Score", 77 / 256), ("age", 1 / 4)]

/-- Three assessments with valid timestamps, oldest first. -/
def sampleHistory : List Assessment :=
  [{ id := "a", timestamp := "2025-01-01T00:00:00Z", timeValue := some 1735689600000 },
   { id := "b", timestamp := "2025-03-01T00:00:00Z", timeValue := some 1740787200000 },
   { id := "c", timestamp := "2025-02-01T00:00:00Z", timeValue := some 1738368000000 }]

/-- An image file is held, the camera overlay is closed, and no Use Photo
click is still to deliver its file. -/
def CaptureIdle (σ : Sys) : Prop :=
  σ.page.imageFile.isSome = true ∧ σ.page.showCamera = false ∧ σ.pendingCaptures = []

/-! ## Properties of `validateStep` -/

/-- C1: at step 1, `validateStep` is true exactly when each of the eight
demographic fields differs from the empty string, and changing any of the ten
behavioral fields to any value leaves its result unchanged. -/
theorem C1_validateStep_demographics (s : WizardState) (h : s.step = 1) :
    (validateStep s = true ↔
      s.formData "name" ≠ some "" ∧ s.formData "age" ≠ some "" ∧
      s.formData "gender" ≠ some "" ∧ s.formData "ethnicity" ≠ some "" ∧
      s.formData "country" ≠ some "" ∧ s.formData "jaundice" ≠ some "" ∧
      s.formData "family_history" ≠ some "" ∧ s.formData "respondent" ≠ some "") ∧
    (∀ field ∈ questionIds, ∀ value : String,
      validateStep (handleChange s field value) = validateStep s) := by
  constructor
  · simp [validateStep, h, requiredStep1]
  · intro field hf value
    simp only [questionIds, List.mem_cons, List.mem_singleton, List.not_mem_nil, or_false] at hf
    rcases hf with rfl | rfl | rfl | rfl | rfl | rfl | rfl | rfl | rfl | rfl <;>
      simp [validateStep, handleChange, h, requiredStep1]

/-- C1 at the Alex draft on step 1: the hypothesis holds and the step is valid. -/
theorem C1_validateStep_demographics_witness :
    (alexAt 1).step = 1 ∧ validateStep (alexAt 1) = true :=
  ⟨rfl, (C1_validateStep_demographics (alexAt 1) rfl).1.mpr (by decide)⟩

/-- C2: at step 2, `validateStep` is true exactly when `a1_score`..`a5_score`
all differ from the empty string, and at step 3 exactly when
`a6_score`..`a10_score` do; changing any field outside the block of five to
any value leaves the result unchanged. -/
theorem C2_validateStep_behavioral (s : WizardState) :
    (s.step = 2 →
      (validateStep s = true ↔
        s.formData "a1_score" ≠ some "" ∧ s.formData "a2_score" ≠ some "" ∧
        s.formData "a3_score" ≠ some "" ∧ s.formData "a4_score" ≠ some "" ∧
        s.formData "a5_score" ≠ some "") ∧
      (∀ field, field ∉ ["a1_score", "a2_score", "a3_score", "a4_score", "a5_score"] →
        ∀ value : String, validateStep (handleChange s field value) = validateStep s)) ∧
    (s.step = 3 →
      (validateStep s = true ↔
        s.formData "a6_score" ≠ some "" ∧ s.formData "a7_score" ≠ some "" ∧
        s.formData "a8_score" ≠ some "" ∧ s.formData "a9_score" ≠ some "" ∧
        s.formData "a10_score" ≠ some "") ∧
      (∀ field, field ∉ ["a6_score", "a7_score", "a8_score", "a9_score", "a10_score"] →
        ∀ value : String, validateStep (handleChange s field value) = validateStep s)) := by
  refine ⟨fun h => ⟨?_, ?_⟩, fun h => ⟨?_, ?_⟩⟩
  · simp [validateStep, h, questionsStep2]
  · intro field hf value
    simp only [List.mem_cons, List.mem_singleton, List.not_mem_nil, or_false, not_or] at hf
    obtain ⟨h1, h2, h3, h4, h5⟩ := hf
    simp [validateStep, handleChange, h, questionsStep2, Ne.symm h1, Ne.symm h2,
      Ne.symm h3, Ne.symm h4, Ne.symm h5]
  · simp [validateStep, h, questionsStep3]
  · intro field hf value
    simp only [List.mem_cons, List.mem_singleton, List.not_mem_nil, or_false, not_or] at hf
    obtain ⟨h1, h2, h3, h4, h5⟩ := hf
    simp [validateStep, handleChange, h, questionsStep3, Ne.symm h1, Ne.symm h2,
      Ne.symm h3, Ne.symm h4, Ne.symm h5]

/-- C2 at the Alex draft: valid on step 2 and on step 3. -/
theorem C2_validateStep_behavioral_witness :
    ((alexAt 2).step = 2 ∧ validateStep (alexAt 2) = true) ∧
    ((alexAt 3).step = 3 ∧ validateStep (alexAt 3) = true) :=
  ⟨⟨rfl, ((C2_validateStep_behavioral (alexAt 2)).1 rfl).1.mpr (by decide)⟩,
   ⟨rfl, ((C2_validateStep_behavioral (alexAt 3)).2 rfl).1.mpr (by decide)⟩⟩

/-- C3: at step 4, `validateStep` is true whatever the draft and whatever the
image state (`imageFile`, `uploadedFilename`, `showCamera`). -/
theorem C3_validateStep_media (s : WizardState) (h : s.step = 4) :
    validateStep s = true := by
  simp [validateStep, h]

/-- C3 at the empty draft moved to step 4 with an image held. -/
theorem C3_validateStep_media_witness :
    validateStep
      { initialState with step := 4, imageFile := some ⟨"face.jpg", [255, 216]⟩ } = true :=
  C3_validateStep_media _ rfl

/-! ## Properties of `handleNext`, `handleBack`, `handleChange` -/

/-- C4: if some field required by the current step is the empty string,
`handleNext` leaves the whole state (so the step index) unchanged and its only
effect is the error toast "Please fill in all required fields". -/
theorem C4_handleNext_blocked (s : WizardState) (field : String)
    (hreq : field ∈ requiredFields s.step) (hempty : s.formData field = some "") :
    handleNext s = (s, [Effect.toastError "Please fill in all required fields"]) ∧
    (handleNext s).1.step = s.step := by
  have hv : validateStep s = false := by
    unfold requiredFields at hreq
    unfold validateStep
    split_ifs at hreq ⊢ with h1 h2 h3
    · simp only [List.all_eq_false]
      exact ⟨field, hreq, by simp [hempty]⟩
    · simp only [List.all_eq_false]
      exact ⟨field, hreq, by simp [hempty]⟩
    · simp only [List.all_eq_false]
      exact ⟨field, hreq, by simp [hempty]⟩
    · simp at hreq
  simp [handleNext, hv, requiredFieldsMessage]

/-- C4 at the initial state: `name` is required at step 1 and empty. -/
theorem C4_handleNext_blocked_witness :
    "name" ∈ requiredFields initialState.step ∧ initialState.formData "name" = some "" ∧
    (handleNext initialState).1.step = 1 :=
  ⟨by decide, by decide,
   (C4_handleNext_blocked initialState "name" (by decide) (by decide)).2⟩

/-- C5: if every field required by the current step differs from the empty
string and the step is at most 4, `handleNext` reports nothing and sets the
step to `min (step + 1) 4`: one more for steps below 4, and at step 4 the
state is left as it is. -/
theorem C5_handleNext_advances (s : WizardState) (hstep : s.step ≤ 4)
    (hfilled : ∀ field ∈ requiredFields s.step, s.formData field ≠ some "") :
    handleNext s = ({ s with step := min (s.step + 1) 4 }, []) ∧
    (s.step < 4 → (handleNext s).1.step = s.step + 1) ∧
    (s.step = 4 → handleNext s = (s, [])) := by
  have hv : validateStep s = true := by
    unfold requiredFields at hfilled
    unfold validateStep
    split_ifs at hfilled ⊢ with h1 h2 h3
    · simp only [List.all_eq_true]
      intro x hx
      simpa using hfilled x hx
    · simp only [List.all_eq_true]
      intro x hx
      simpa using hfilled x hx
    · simp only [List.all_eq_true]
      intro x hx
      simpa using hfilled x hx
    · rfl
  by_cases h4 : s.step < 4
  · have hmin : min (s.step + 1) 4 = s.step + 1 := by omega
    simp [handleNext, hv, h4, hmin]
    intro h
    omega
  · have h4eq : s.step = 4 := by omega
    have hmin : min (s.step + 1) 4 = s.step := by omega
    simp [handleNext, hv, h4, hmin]

/-- C5 at the Alex draft on step 1: the step becomes 2 with no effect. -/
theorem C5_handleNext_advances_witness :
    (alexAt 1).step ≤ 4 ∧
    (∀ field ∈ requiredFields (alexAt 1).step, (alexAt 1).formData field ≠ some "") ∧
    (handleNext (alexAt 1)).1.step = 2 ∧ (handleNext (alexAt 1)).2 = [] :=
  have hfilled : ∀ field ∈ requiredFields (alexAt 1).step,
      (alexAt 1).formData field ≠ some "" := by decide
  have h := C5_handleNext_advances (alexAt 1) (by decide) hfilled
  ⟨by decide, hfilled, h.2.1 (by decide), by rw [h.1]⟩

/-- C6: `handleBack` leaves step 1 as it is and takes a step `s` in 2, 3, 4
to `s - 1`, with no effect reported; no field of the draft enters into it, so
it does the same whether or not the current step is valid. -/
theorem C6_handleBack (s : WizardState) :
    (s.step = 1 → handleBack s = (s, [])) ∧
    (s.step = 2 ∨ s.step = 3 ∨ s.step = 4 →
      handleBack s = ({ s with step := s.step - 1 }, [])) ∧
    (∀ fd : FormData,
      handleBack { s with formData := fd } =
        ({ (handleBack s).1 with formData := fd }, (handleBack s).2)) := by
  refine ⟨fun h => ?_, fun h => ?_, fun fd => ?_⟩
  · simp [handleBack, h]
  · have h1 : s.step > 1 := by omega
    simp [handleBack, h1]
  · by_cases h1 : s.step > 1 <;> simp [handleBack, h1]

/-- C6 at the initial (invalid) draft on steps 1 and 3. -/
theorem C6_handleBack_witness :
    (handleBack initialState).1.step = 1 ∧
    (handleBack { initialState with step := 3 }).1.step = 2 ∧
    (handleBack { initialState with step := 3 }).2 = [] :=
  have h3 := (C6_handleBack { initialState with step := 3 }).2.1 (Or.inr (Or.inl rfl))
  ⟨(congrArg (fun r => r.1.step) ((C6_handleBack initialState).1 rfl)).trans rfl,
   (congrArg (fun r => r.1.step) h3).trans rfl,
   (congrArg (fun r => r.2) h3).trans rfl⟩

/-- C7: `handleChange` is defined for every state, key and value; afterwards
the key maps to the value, every other key maps to what it did before, and
the step, the image file, the stored image reference, the camera flag, the
busy flag and the capture method are unchanged. -/
theorem C7_handleChange_frame (s : WizardState) (field value : String) :
    (handleChange s field value).formData field = some value ∧
    (∀ k, k ≠ field → (handleChange s field value).formData k = s.formData k) ∧
    (handleChange s field value).step = s.step ∧
    (handleChange s field value).imageFile = s.imageFile ∧
    (handleChange s field value).uploadedFilename = s.uploadedFilename ∧
    (handleChange s field value).showCamera = s.showCamera ∧
    (handleChange s field value).loading = s.loading ∧
    (handleChange s field value).captureMethod = s.captureMethod := by
  refine ⟨by simp [handleChange], fun k hk => by simp [handleChange, hk], rfl, rfl, rfl,
    rfl, rfl, rfl⟩

/-! ## The gating invariant -/

theorem absorb_page (effects : List Effect) (σ : Sys) :
    (absorb σ effects).page = σ.page := by
  induction effects generalizing σ with
  | nil => rfl
  | cons e rest ih => cases e <;> simp [absorb, ih]

theorem commit_page (σ : Sys) (r : WizardState × List Effect) :
    (commit σ r).page = r.1 := by
  simp [commit, absorb_page]

theorem wizardInv_of_eq {s t : WizardState} (hstep : t.step = s.step)
    (hfd : t.formData = s.formData) (h : WizardInv s) : WizardInv t := by
  unfold WizardInv at h ⊢
  rw [hstep, hfd]
  exact h

theorem wizardInv_initial : WizardInv initialState := by
  refine ⟨by decide, by decide, by decide, ?_, ?_, ?_⟩ <;>
    intro h <;> exact absurd h (by decide)

theorem filled_update {fd : FormData} {keys : List String} {field : String}
    (value : String) (hf : field ∉ keys) (h : Filled fd keys) :
    Filled (fun k => if k = field then some value else fd k) keys := by
  intro k hk
  have hne : k ≠ field := fun hkf => hf (hkf ▸ hk)
  simpa [hne] using h k hk

theorem present_update {fd : FormData} (field value : String)
    (h : ∀ k ∈ formKeys, (fd k).isSome = true) :
    ∀ k ∈ formKeys, ((fun k => if k = field then some value else fd k) k).isSome = true := by
  intro k hk
  by_cases hkf : k = field
  · simp [hkf]
  · simpa [hkf] using h k hk

theorem filled_of_all {fd : FormData} {keys : List String}
    (hpresent : ∀ k ∈ formKeys, (fd k).isSome = true) (hsub : ∀ k ∈ keys, k ∈ formKeys)
    (hall : keys.all (fun field => fd field != some "") = true) : Filled fd keys := by
  intro k hk
  have h1 := hpresent k (hsub k hk)
  have h2 := List.all_eq_true.mp hall k hk
  cases hv : fd k with
  | none => simp [hv] at h1
  | some v =>
    refine ⟨v, rfl, ?_⟩
    intro hv2
    simp [hv, hv2] at h2

theorem shown_not_required1 (step : Nat) (h : 1 < step) :
    ∀ field ∈ shownFields step, field ∉ requiredStep1 := by
  by_cases h2 : step = 2
  · subst h2; decide
  · by_cases h3 : step = 3
    · subst h3; decide
    · have h1 : step ≠ 1 := by omega
      simp [shownFields, h1, h2, h3]

theorem shown_not_required2 (step : Nat) (h : 2 < step) :
    ∀ field ∈ shownFields step, field ∉ questionsStep2 := by
  by_cases h3 : step = 3
  · subst h3; decide
  · have h1 : step ≠ 1 := by omega
    have h2 : step ≠ 2 := by omega
    simp [shownFields, h1, h2, h3]

theorem shown_not_required3 (step : Nat) (h : 3 < step) :
    ∀ field ∈ shownFields step, field ∉ questionsStep3 := by
  have h1 : step ≠ 1 := by omega
  have h2 : step ≠ 2 := by omega
  have h3 : step ≠ 3 := by omega
  simp [shownFields, h1, h2, h3]

theorem wizardInv_handleChange {s : WizardState} (field value : String)
    (hshown : field ∈ shownFields s.step) (h : WizardInv s) :
    WizardInv (handleChange s field value) := by
  obtain ⟨h1, h4, hp, hf1, hf2, hf3⟩ := h
  exact ⟨h1, h4, present_update field value hp,
    fun hlt => filled_update value (shown_not_required1 _ hlt field hshown) (hf1 hlt),
    fun hlt => filled_update value (shown_not_required2 _ hlt field hshown) (hf2 hlt),
    fun hlt => filled_update value (shown_not_required3 _ hlt field hshown) (hf3 hlt)⟩

theorem wizardInv_handleNext {s : WizardState} (h : WizardInv s) :
    WizardInv (handleNext s).1 := by
  obtain ⟨h1, h4, hp, hf1, hf2, hf3⟩ := h
  unfold handleNext
  by_cases hv : validateStep s = true
  · by_cases hlt : s.step < 4
    · simp only [hv, Bool.not_true, Bool.false_eq_true, if_false, hlt, if_true]
      have hcur : Filled s.formData (requiredFields s.step) := by
        unfold validateStep at hv
        unfold requiredFields
        split_ifs at hv ⊢ with c1 c2 c3
        · exact filled_of_all hp (by decide) hv
        · exact filled_of_all hp (by decide) hv
        · exact filled_of_all hp (by decide) hv
        · omega
      refine ⟨by simp, by simp; omega, hp, ?_, ?_, ?_⟩
      · intro hs
        by_cases c1 : s.step = 1
        · simpa [requiredFields, c1] using hcur
        · exact hf1 (by omega)
      · intro hs
        by_cases c2 : s.step = 2
        · simpa [requiredFields, c2] using hcur
        · exact hf2 (by simp at hs; omega)
      · intro hs
        by_cases c3 : s.step = 3
        · simpa [requiredFields, c3] using hcur
        · exact hf3 (by simp at hs; omega)
    · simp only [hv, Bool.not_true, Bool.false_eq_true, if_false, hlt]
      exact ⟨h1, h4, hp, hf1, hf2, hf3⟩
  · simp only [hv, Bool.not_false, if_true]
    exact ⟨h1, h4, hp, hf1, hf2, hf3⟩

theorem wizardInv_handleBack {s : WizardState} (h : WizardInv s) :
    WizardInv (handleBack s).1 := by
  obtain ⟨h1, h4, hp, hf1, hf2, hf3⟩ := h
  unfold handleBack
  by_cases hgt : s.step > 1
  · simp only [hgt, if_true]
    exact ⟨by simp; omega, by simp; omega, hp, fun hs => hf1 (by simp at hs; omega),
      fun hs => hf2 (by simp at hs; omega), fun hs => hf3 (by simp at hs; omega)⟩
  · simp only [hgt, if_false]
    exact ⟨h1, h4, hp, hf1, hf2, hf3⟩

theorem handleImageUploadStart_frame (s : WizardState) (file : Option File) :
    (handleImageUploadStart s file).1.step = s.step ∧
    (handleImageUploadStart s file).1.formData = s.formData := by
  cases file <;> exact ⟨rfl, rfl⟩

theorem handleFileUpload_frame (s : WizardState) (files : List File) :
    (handleFileUpload s files).1.step = s.step ∧
    (handleFileUpload s files).1.formData = s.formData := by
  unfold handleFileUpload
  cases files.head? with
  | none => exact ⟨rfl, rfl⟩
  | some f => exact handleImageUploadStart_frame s (some f)

theorem handleImageUploadSettle_frame (s : WizardState) (r : HttpResult) :
    (handleImageUploadSettle s r).1.step = s.step ∧
    (handleImageUploadSettle s r).1.formData = s.formData := by
  cases r <;> exact ⟨rfl, rfl⟩

theorem handleSubmitSettle_frame (s : WizardState) (r : HttpResult) :
    (handleSubmitSettle s r).1.step = s.step ∧
    (handleSubmitSettle s r).1.formData = s.formData := by
  cases r <;> exact ⟨rfl, rfl⟩

theorem wizardInv_fire (σ : Sys) (e : Event) (hen : enabled σ e = true)
    (h : WizardInv σ.page) : WizardInv (fire σ e).page := by
  cases e with
  | change field value =>
    exact wizardInv_handleChange field value (by simpa [enabled] using hen) h
  | next => simpa [fire, commit_page] using wizardInv_handleNext h
  | back => simpa [fire, commit_page] using wizardInv_handleBack h
  | openCamera => exact wizardInv_of_eq rfl rfl h
  | closeCamera => exact wizardInv_of_eq rfl rfl h
  | switchCamera => exact wizardInv_of_eq rfl rfl h
  | capture screenshot => exact wizardInv_of_eq rfl rfl h
  | retake => exact wizardInv_of_eq rfl rfl h
  | confirm =>
    simp only [fire]
    split <;> exact wizardInv_of_eq rfl rfl h
  | cameraCapture i =>
    simp only [fire]
    split
    · simp only [commit_page]
      exact wizardInv_of_eq (handleImageUploadStart_frame _ _).1
        (handleImageUploadStart_frame _ _).2 h
    · exact h
  | fileUpload files =>
    simp only [fire, commit_page]
    exact wizardInv_of_eq (handleFileUpload_frame _ _).1 (handleFileUpload_frame _ _).2 h
  | removeImage => exact wizardInv_of_eq rfl rfl h
  | uploadSettled i r =>
    simp only [fire, commit_page]
    exact wizardInv_of_eq (handleImageUploadSettle_frame _ _).1
      (handleImageUploadSettle_frame _ _).2 h
  | submit =>
    simp only [fire, commit_page]
    exact wizardInv_of_eq rfl rfl h
  | submitSettled i r =>
    simp only [fire, commit_page]
    exact wizardInv_of_eq (handleSubmitSettle_frame _ _).1
      (handleSubmitSettle_frame _ _).2 h

theorem wizardInv_stepEvent (σ : Sys) (e : Event) (h : WizardInv σ.page) :
    WizardInv (stepEvent σ e).page := by
  unfold stepEvent
  split_ifs with hc
  · exact wizardInv_fire σ e (by simp at hc; exact hc.2) h
  · exact h

theorem wizardInv_run (events : List Event) (σ : Sys) (h : WizardInv σ.page) :
    WizardInv (run σ events).page := by
  induction events generalizing σ with
  | nil => exact h
  | cons e rest ih => exact ih (stepEvent σ e) (wizardInv_stepEvent σ e h)

/-- C8: after any sequence of events from the initial state (field edits
offered by the current step, Next, Back, camera, file selection, removal,
upload and submit completions), if the page offers submission, that is the
step is not below 4, then the step is 4 and each of the 18 draft fields holds
a string other than the empty one. -/
theorem C8_submit_offered_only_when_filled (events : List Event)
    (hlast : ¬ (run initialSys events).page.step < 4) :
    (run initialSys events).page.step = 4 ∧
    ∀ k ∈ formKeys, ∃ v, (run initialSys events).page.formData k = some v ∧ v ≠ "" := by
  obtain ⟨_, h4, _, hf1, hf2, hf3⟩ := wizardInv_run events initialSys wizardInv_initial
  refine ⟨by omega, ?_⟩
  intro k hk
  have hk3 : k ∈ requiredStep1 ∨ k ∈ questionsStep2 ∨ k ∈ questionsStep3 := by
    revert k
    decide
  rcases hk3 with hk1 | hk2 | hk3
  · exact hf1 (by omega) k hk1
  · exact hf2 (by omega) k hk2
  · exact hf3 (by omega) k hk3

/-- C8 on the session that fills in the Alex draft: it ends on step 4 with
`age` holding `"7"`. -/
theorem C8_submit_offered_only_when_filled_witness :
    (run initialSys alexSession).page.step = 4 ∧
    ∃ v, (run initialSys alexSession).page.formData "age" = some v ∧ v ≠ "" :=
  have h := C8_submit_offered_only_when_filled alexSession (by decide)
  ⟨h.1, h.2 "age" (by decide)⟩

/-! ## `parseInt` on decimal renderings -/

theorem isRadixDigit_of_decimal {c : Char} (h : IsDecimalDigit c) :
    isRadixDigit 10 c = true := by
  obtain ⟨h1, h2⟩ := h
  simp only [isRadixDigit, digitValue, h1, h2, and_self, if_true, decide_eq_true_eq]
  omega

theorem not_whiteSpace_of_decimal {c : Char} (h : IsDecimalDigit c) :
    isStrWhiteSpaceChar c = false := by
  obtain ⟨h1, h2⟩ := h
  simp only [isStrWhiteSpaceChar, Bool.or_eq_false_iff, decide_eq_false_iff_not,
    Bool.and_eq_false_iff]
  omega

theorem bitLengthAux_le (fuel : Nat) : ∀ m k : Nat, m < 2 ^ k → bitLengthAux fuel m ≤ k := by
  induction fuel with
  | zero => intro m k _; simp [bitLengthAux]
  | succ fuel ih =>
    intro m k hm
    unfold bitLengthAux
    split_ifs with h0
    · omega
    · cases k with
      | zero => simp at hm; omega
      | succ k =>
        have : m / 2 < 2 ^ k := by
          rw [Nat.div_lt_iff_lt_mul (by norm_num)]
          rw [pow_succ] at hm
          exact hm
        have := ih (m / 2) k this
        omega

theorem toNumber_safe (negative : Bool) (m : Nat) (h0 : m ≠ 0) (h : m < 2 ^ 53) :
    toNumber negative m = JSNumber.int (if negative then -(m : Int) else (m : Int)) := by
  have hb : bitLength m ≤ 53 := bitLengthAux_le m m 53 h
  simp [toNumber, h0, roundToDouble, hb]

theorem takeWhile_all {α : Type} (p : α → Bool) (l : List α) (h : ∀ x ∈ l, p x = true) :
    l.takeWhile p = l := by
  induction l with
  | nil => rfl
  | cons a t ih =>
    simp only [List.takeWhile, h a (List.mem_cons_self a t)]
    rw [ih (fun x hx => h x (List.mem_cons_of_mem a hx))]

theorem readSign_digit {c : Char} (t : List Char) (hc : IsDecimalDigit c) :
    readSign (c :: t) = (false, c :: t) := by
  unfold readSign
  split
  · rename_i heq
    injection heq with h1 h2
    subst h1
    exact absurd hc (by unfold IsDecimalDigit; decide)
  · rename_i heq
    injection heq with h1 h2
    subst h1
    exact absurd hc (by unfold IsDecimalDigit; decide)
  · rfl

theorem readRadix_digits {S : List Char} (hall : ∀ x ∈ S, IsDecimalDigit x) :
    readRadix S = (10, S) := by
  unfold readRadix
  split
  · exact absurd (hall 'x' (by simp)) (by unfold IsDecimalDigit; decide)
  · exact absurd (hall 'X' (by simp)) (by unfold IsDecimalDigit; decide)
  · rfl

theorem parseIntChars_digits (c : Char) (t : List Char)
    (hall : ∀ x ∈ c :: t, IsDecimalDigit x) :
    parseIntChars (c :: t) = toNumber false (radixValue 10 (c :: t)) := by
  have hc := hall c (List.mem_cons_self c t)
  have hws := not_whiteSpace_of_decimal hc
  have htake : (c :: t).takeWhile (isRadixDigit 10) = c :: t :=
    takeWhile_all _ _ (fun x hx => isRadixDigit_of_decimal (hall x hx))
  unfold parseIntChars
  simp only [List.dropWhile, hws, readSign_digit t hc, readRadix_digits hall, htake]
  simp

theorem parseIntChars_minus_digits (c : Char) (t : List Char)
    (hall : ∀ x ∈ c :: t, IsDecimalDigit x) :
    parseIntChars ('-' :: c :: t) = toNumber true (radixValue 10 (c :: t)) := by
  have htake : (c :: t).takeWhile (isRadixDigit 10) = c :: t :=
    takeWhile_all _ _ (fun x hx => isRadixDigit_of_decimal (hall x hx))
  have hws : isStrWhiteSpaceChar '-' = false := by decide
  have hs : readSign ('-' :: c :: t) = (true, c :: t) := rfl
  unfold parseIntChars
  simp only [List.dropWhile, hws, hs, readRadix_digits hall, htake]
  simp

theorem radixValue_snoc (R : Nat) (l : List Char) (c : Char) :
    radixValue R (l ++ [c]) = radixValue R l * R + (digitValue c).getD 0 := by
  simp [radixValue, List.foldl_append]

theorem digitChar_decimal (k : Nat) (h : k < 10) :
    IsDecimalDigit (Nat.digitChar k) ∧ digitValue (Nat.digitChar k) = some k := by
  unfold IsDecimalDigit
  interval_cases k <;> decide

/-- The characters `Nat.repr` produces: a non-empty run of decimal digits whose
value is the number. -/
theorem toDigitsCore_spec (fuel : Nat) : ∀ n (ds : List Char), n < fuel →
    ∃ l, Nat.toDigitsCore 10 fuel n ds = l ++ ds ∧ l ≠ [] ∧
      (∀ x ∈ l, IsDecimalDigit x) ∧ radixValue 10 l = n := by
  induction fuel with
  | zero => intro n ds h; omega
  | succ fuel ih =>
    intro n ds hn
    have hd := digitChar_decimal (n % 10) (Nat.mod_lt _ (by norm_num))
    unfold Nat.toDigitsCore
    by_cases h0 : n / 10 = 0
    · simp only [h0, if_true]
      refine ⟨[Nat.digitChar (n % 10)], rfl, by simp, ?_, ?_⟩
      · intro x hx
        simp only [List.mem_singleton] at hx
        rw [hx]
        exact hd.1
      · simp only [radixValue, List.foldl, hd.2, Option.getD_some]
        omega
    · simp only [h0, if_false]
      obtain ⟨l, hl, hne, hdig, hval⟩ := ih (n / 10) (Nat.digitChar (n % 10) :: ds) (by omega)
      refine ⟨l ++ [Nat.digitChar (n % 10)], by simp [hl], by simp, ?_, ?_⟩
      · intro x hx
        rcases List.mem_append.mp hx with hx | hx
        · exact hdig x hx
        · simp only [List.mem_singleton] at hx
          rw [hx]
          exact hd.1
      · rw [radixValue_snoc, hval, hd.2, Option.getD_some]
        omega

theorem toDigits_spec (n : Nat) :
    ∃ c t, Nat.toDigits 10 n = c :: t ∧ (∀ x ∈ c :: t, IsDecimalDigit x) ∧
      radixValue 10 (c :: t) = n := by
  obtain ⟨l, hl, hne, hdig, hval⟩ := toDigitsCore_spec (n + 1) n [] (by omega)
  cases l with
  | nil => exact absurd rfl hne
  | cons c t => exact ⟨c, t, by simp [Nat.toDigits, hl], hdig, hval⟩

/-- `parseInt` inverts the decimal rendering of every integer of magnitude
below `2 ^ 53`. -/
theorem parseInt_toString (n : Int) (h : n.natAbs < 2 ^ 53) :
    parseInt (some (toString n)) = JSNumber.int n := by
  cases n with
  | ofNat m =>
    obtain ⟨c, t, hct, hdig, hval⟩ := toDigits_spec m
    have hdata : (toString (Int.ofNat m)).data = c :: t := hct
    simp only [parseInt, hdata]
    rw [parseIntChars_digits c t hdig, hval]
    by_cases h0 : m = 0
    · subst h0
      rfl
    · rw [toNumber_safe false m h0 (by simpa using h)]
      simp
  | negSucc m =>
    obtain ⟨c, t, hct, hdig, hval⟩ := toDigits_spec (m + 1)
    have hdata : (toString (Int.negSucc m)).data = '-' :: c :: t := by
      show ("-" ++ Nat.repr (m + 1)).data = _
      simp [String.data_append, Nat.repr, List.asString, hct]
    simp only [parseInt, hdata]
    rw [parseIntChars_minus_digits c t hdig, hval]
    rw [toNumber_safe true (m + 1) (by omega) (by simpa using h)]
    simp [Int.negSucc_eq]

/-! ## Properties of `handleSubmit` -/

theorem payloadNumber_buildPayload (s : WizardState) :
    ∀ k ∈ numericKeys, payloadNumber (buildPayload s) k = some (parseInt (s.formData k)) := by
  intro k hk
  simp only [numericKeys, List.mem_cons, List.mem_singleton, List.not_mem_nil, or_false] at hk
  rcases hk with rfl | rfl | rfl | rfl | rfl | rfl | rfl | rfl | rfl | rfl | rfl | rfl |
    rfl | rfl | rfl <;> simp [payloadNumber, buildPayload]

/-- C9 (amended): if each numeric field of the draft holds the decimal string
of an integer of magnitude below `2 ^ 53`, the payload `handleSubmit` builds
and posts has exactly those integers as its numeric properties, and the
draft's `name`, `country` and `respondent` unchanged. -/
theorem C9_payload_safe_integers (s : WizardState) (n : String → Int)
    (hdec : ∀ k ∈ numericKeys, s.formData k = some (toString (n k)))
    (hsafe : ∀ k ∈ numericKeys, (n k).natAbs < 2 ^ 53) :
    buildPayload s = integerPayload s n ∧
    ∀ r : HttpResult,
      ∃ rest, (handleSubmit s r).2 = Effect.postAssess (integerPayload s n) :: rest := by
  have key : ∀ k ∈ numericKeys, parseInt (s.formData k) = JSNumber.int (n k) := by
    intro k hk
    rw [hdec k hk]
    exact parseInt_toString (n k) (hsafe k hk)
  have hp : buildPayload s = integerPayload s n := by
    simp only [buildPayload, integerPayload, key "age" (by decide), key "gender" (by decide),
      key "ethnicity" (by decide), key "jaundice" (by decide),
      key "family_history" (by decide), key "a1_score" (by decide),
      key "a2_score" (by decide), key "a3_score" (by decide), key "a4_score" (by decide),
      key "a5_score" (by decide), key "a6_score" (by decide), key "a7_score" (by decide),
      key "a8_score" (by decide), key "a9_score" (by decide), key "a10_score" (by decide)]
  refine ⟨hp, fun r => ⟨(handleSubmitSettle (handleSubmitStart s).1 r).2, ?_⟩⟩
  simp [handleSubmit, handleSubmitStart, hp]

/-- C9 on the Alex draft: `age` is 7, `gender` is 0 and the ten answers are 1. -/
theorem C9_payload_safe_integers_witness :
    (∀ k ∈ numericKeys, (alexAt 4).formData k = some (toString (alexNumbers k))) ∧
    (∀ k ∈ numericKeys, (alexNumbers k).natAbs < 2 ^ 53) ∧
    buildPayload (alexAt 4) = integerPayload (alexAt 4) alexNumbers ∧
    (integerPayload (alexAt 4) alexNumbers).demographic.age = JSNumber.int 7 ∧
    (integerPayload (alexAt 4) alexNumbers).demographic.gender = JSNumber.int 0 ∧
    (∀ k ∈ questionIds,
      payloadNumber (integerPayload (alexAt 4) alexNumbers) k = some (JSNumber.int 1)) :=
  have hdec : ∀ k ∈ numericKeys, (alexAt 4).formData k = some (toString (alexNumbers k)) := by
    decide
  have hsafe : ∀ k ∈ numericKeys, (alexNumbers k).natAbs < 2 ^ 53 := by decide
  ⟨hdec, hsafe, (C9_payload_safe_integers (alexAt 4) alexNumbers hdec hsafe).1,
    by decide, by decide, by decide⟩

/-- C9 as stated fails: with `age` holding the decimal string of `2 ^ 53 + 1`
every numeric field is the decimal string of an integer, yet the payload's
`age` is `2 ^ 53`. -/
theorem C9_counterexample_large_integer :
    (∀ k ∈ numericKeys, bigAgeDraft.formData k = some (toString (bigAgeNumbers k))) ∧
    bigAgeNumbers "age" = 9007199254740993 ∧
    (buildPayload bigAgeDraft).demographic.age = JSNumber.int 9007199254740992 ∧
    buildPayload bigAgeDraft ≠ integerPayload bigAgeDraft bigAgeNumbers := by
  refine ⟨by decide, by decide, by decide, ?_⟩
  intro h
  have hage := congrArg (fun p => p.demographic.age) h
  revert hage
  decide

/-- C10 (amended): `handleSubmit` makes no coercion check.  If `parseInt` yields
`NaN` for a numeric field, the request is still issued first, with `NaN` as
that property of the payload, and an error toast appears exactly when the
request itself fails. -/
theorem C10_uncoercible_field_is_sent (s : WizardState) (k : String)
    (hk : k ∈ numericKeys) (hnan : parseInt (s.formData k) = JSNumber.nan)
    (r : HttpResult) :
    (∃ rest, (handleSubmit s r).2 = Effect.postAssess (buildPayload s) :: rest) ∧
    payloadNumber (buildPayload s) k = some JSNumber.nan ∧
    ((∃ msg, Effect.toastError msg ∈ (handleSubmit s r).2) ↔ r = HttpResult.error) := by
  refine ⟨⟨(handleSubmitSettle (handleSubmitStart s).1 r).2, ?_⟩, ?_, ?_⟩
  · simp [handleSubmit, handleSubmitStart]
  · rw [payloadNumber_buildPayload s k hk, hnan]
  · cases r <;> simp [handleSubmit, handleSubmitStart, handleSubmitSettle]

/-- C10 on the Alex draft with `age` set to `"abc"` and a successful response:
the payload goes out with `age` being `NaN`. -/
theorem C10_uncoercible_field_is_sent_witness :
    "age" ∈ numericKeys ∧ parseInt (textAgeDraft.formData "age") = JSNumber.nan ∧
    payloadNumber (buildPayload textAgeDraft) "age" = some JSNumber.nan :=
  ⟨by decide, by decide,
   (C10_uncoercible_field_is_sent textAgeDraft "age" (by decide) (by decide)
      (HttpResult.ok "abc123")).2.1⟩

/-- C10 as stated fails: with `age` set to `"abc"` through `handleChange` and
a successful response, `handleSubmit` posts a payload whose `age` is `NaN`,
reports success and navigates; no error is reported. -/
theorem C10_counterexample_text_age :
    textAgeDraft = handleChange (alexAt 4) "age" "abc" ∧
    parseInt (textAgeDraft.formData "age") = JSNumber.nan ∧
    (handleSubmit textAgeDraft (HttpResult.ok "abc123")).2 =
      [Effect.postAssess (buildPayload textAgeDraft),
       Effect.toastSuccess "Assessment completed successfully",
       Effect.navigate "/results/abc123"] ∧
    (buildPayload textAgeDraft).demographic.age = JSNumber.nan ∧
    (∀ msg, Effect.toastError msg ∉
      (handleSubmit textAgeDraft (HttpResult.ok "abc123")).2) := by
  refine ⟨rfl, by decide, by decide, by decide, ?_⟩
  intro msg
  simp [handleSubmit, handleSubmitStart, handleSubmitSettle]

/-- C11: the payload `handleSubmit` posts has `image_filename` equal to the
stored reference: `null` when none is stored, in particular after the image
was removed and at the end of the Alex session, which skips the media step,
and the stored reference otherwise. -/
theorem C11_image_filename (s : WizardState) (r : HttpResult) :
    (∃ rest, (handleSubmit s r).2 = Effect.postAssess (buildPayload s) :: rest) ∧
    (buildPayload s).image_filename = s.uploadedFilename ∧
    (s.uploadedFilename = none → (buildPayload s).image_filename = none) ∧
    (∀ ref, s.uploadedFilename = some ref → (buildPayload s).image_filename = some ref) ∧
    (buildPayload (removeImage s)).image_filename = none ∧
    (buildPayload (run initialSys alexSession).page).image_filename = none := by
  refine ⟨⟨(handleSubmitSettle (handleSubmitStart s).1 r).2, ?_⟩, rfl, ?_, ?_, rfl,
    by decide⟩
  · simp [handleSubmit, handleSubmitStart]
  · intro h
    simp [buildPayload, h]
  · intro ref h
    simp [buildPayload, h]

/-- C11 on the Alex draft: without a stored reference `image_filename` is
`null`, with the reference `"u1.jpg"` stored it is `"u1.jpg"`. -/
theorem C11_image_filename_witness :
    (buildPayload (alexAt 4)).image_filename = none ∧
    (buildPayload { alexAt 4 with uploadedFilename := some "u1.jpg" }).image_filename
      = some "u1.jpg" :=
  ⟨(C11_image_filename (alexAt 4) HttpResult.error).2.2.1 rfl,
   (C11_image_filename { alexAt 4 with uploadedFilename := some "u1.jpg" }
      HttpResult.error).2.2.2.1 "u1.jpg" rfl⟩

/-- C12: on a successful response with identifier `id`, `handleSubmit` issues
exactly one request (the post of the payload), then toasts success and
navigates to `/results/` followed by `id`; afterwards the busy flag is false
and nothing else of the state has changed. -/
theorem C12_submit_success (s : WizardState) (id : String) :
    (handleSubmit s (HttpResult.ok id)).2 =
      [Effect.postAssess (buildPayload s),
       Effect.toastSuccess "Assessment completed successfully",
       Effect.navigate ("/results/" ++ id)] ∧
    (handleSubmit s (HttpResult.ok id)).1 = { s with loading := false } ∧
    (commit { initialSys with page := s }
      (handleSubmitSettle (handleSubmitStart s).1 (HttpResult.ok id))).navigated
      = some ("/results/" ++ id) := by
  refine ⟨rfl, rfl, rfl⟩

/-- C13: when the evaluation request fails, `handleSubmit` leaves every draft
field, the step, the image file and the stored reference as they were, ends
with the busy flag false, reports the error toast and does not navigate; the
submit button is then enabled on the last step and a second `handleSubmit`
issues the request again. -/
theorem C13_submit_failure (s : WizardState) :
    (handleSubmit s HttpResult.error).1 = { s with loading := false } ∧
    (handleSubmit s HttpResult.error).1.formData = s.formData ∧
    (handleSubmit s HttpResult.error).1.step = s.step ∧
    (handleSubmit s HttpResult.error).1.uploadedFilename = s.uploadedFilename ∧
    (handleSubmit s HttpResult.error).1.imageFile = s.imageFile ∧
    (handleSubmit s HttpResult.error).1.loading = false ∧
    (handleSubmit s HttpResult.error).2 =
      [Effect.postAssess (buildPayload s),
       Effect.toastError "Failed to submit assessment", Effect.consoleError] ∧
    (∀ path, Effect.navigate path ∉ (handleSubmit s HttpResult.error).2) ∧
    (∀ σ : Sys, ¬ σ.page.step < 4 →
      enabled { σ with page := (handleSubmit σ.page HttpResult.error).1 } Event.submit
        = true) ∧
    (∀ r, ∃ rest, (handleSubmit (handleSubmit s HttpResult.error).1 r).2 =
      Effect.postAssess (buildPayload s) :: rest) := by
  refine ⟨rfl, rfl, rfl, rfl, rfl, rfl, rfl, ?_, ?_, ?_⟩
  · intro path
    simp [handleSubmit, handleSubmitStart, handleSubmitSettle]
  · intro σ h
    simp [enabled, handleSubmit, handleSubmitStart, handleSubmitSettle, h]
  · intro r
    refine ⟨(handleSubmitSettle
      (handleSubmitStart (handleSubmit s HttpResult.error).1).1 r).2, ?_⟩
    simp [handleSubmit, handleSubmitStart, handleSubmitSettle, buildPayload]

/-- C13 on the Alex draft at the last step: after a failed submit the button
is enabled again. -/
theorem C13_submit_failure_witness :
    ¬ (alexAt 4).step < 4 ∧
    enabled { initialSys with page := (handleSubmit (alexAt 4) HttpResult.error).1 }
      Event.submit = true :=
  ⟨by decide,
   (C13_submit_failure (alexAt 4)).2.2.2.2.2.2.2.2.1 { initialSys with page := alexAt 4 }
     (by decide)⟩

/-! ## Submission gating -/

/-- Events other than the submit click and the submit completion leave the
outstanding evaluation requests and the busy flag alone. -/
theorem fire_keeps_submits (σ : Sys) (e : Event) (h1 : e ≠ Event.submit)
    (h2 : ∀ i r, e ≠ Event.submitSettled i r) :
    (fire σ e).pendingSubmits = σ.pendingSubmits ∧
    (fire σ e).page.loading = σ.page.loading := by
  cases e with
  | change field value => exact ⟨rfl, rfl⟩
  | next =>
    simp only [fire, commit, absorb_page, handleNext]
    split_ifs <;> exact ⟨rfl, rfl⟩
  | back =>
    simp only [fire, commit, absorb_page, handleBack]
    split_ifs <;> exact ⟨rfl, rfl⟩
  | openCamera => exact ⟨rfl, rfl⟩
  | closeCamera => exact ⟨rfl, rfl⟩
  | switchCamera => exact ⟨rfl, rfl⟩
  | capture screenshot => exact ⟨rfl, rfl⟩
  | retake => exact ⟨rfl, rfl⟩
  | confirm =>
    simp only [fire]
    split <;> exact ⟨rfl, rfl⟩
  | cameraCapture i =>
    simp only [fire]
    split <;> exact ⟨rfl, rfl⟩
  | fileUpload files =>
    simp only [fire, commit, absorb_page, handleFileUpload]
    cases files.head? <;> exact ⟨rfl, rfl⟩
  | removeImage => exact ⟨rfl, rfl⟩
  | uploadSettled i r => cases r <;> exact ⟨rfl, rfl⟩
  | submit => exact absurd rfl h1
  | submitSettled i r => exact absurd rfl (h2 i r)

theorem submitInv_stepEvent (σ : Sys) (e : Event) (h : SubmitInv σ) :
    SubmitInv (stepEvent σ e) := by
  unfold stepEvent
  split_ifs with hc
  · simp only [Bool.and_eq_true] at hc
    obtain ⟨_, hen⟩ := hc
    obtain ⟨hlen, hidle⟩ := h
    by_cases h1 : e = Event.submit
    · subst h1
      have hl : σ.page.loading = false := by
        simp only [enabled, Bool.and_eq_true, Bool.not_eq_true'] at hen
        exact hen.2
      have hnil := hidle hl
      refine ⟨?_, ?_⟩
      · simp [fire, commit, handleSubmitStart, absorb, hnil]
      · intro hfalse
        simp [fire, commit, handleSubmitStart, absorb] at hfalse
    · by_cases h2 : ∃ i r, e = Event.submitSettled i r
      · obtain ⟨i, r, rfl⟩ := h2
        have hi : i < σ.pendingSubmits.length := by simpa [enabled] using hen
        have hnil : σ.pendingSubmits.eraseIdx i = [] := by
          have : (σ.pendingSubmits.eraseIdx i).length = 0 := by
            rw [List.length_eraseIdx, if_pos hi]
            omega
          exact List.length_eq_zero.mp this
        cases r <;>
          simp [SubmitInv, fire, commit, handleSubmitSettle, absorb, hnil]
      · have h2a : ∀ i r, e ≠ Event.submitSettled i r := fun i r he => h2 ⟨i, r, he⟩
        obtain ⟨hp, hl⟩ := fire_keeps_submits σ e h1 h2a
        exact ⟨by rw [hp]; exact hlen, by rw [hp, hl]; exact hidle⟩
  · exact h

theorem submitInv_run (events : List Event) (σ : Sys) (h : SubmitInv σ) :
    SubmitInv (run σ events) := by
  induction events generalizing σ with
  | nil => exact h
  | cons e rest ih => exact ih (stepEvent σ e) (submitInv_stepEvent σ e h)

theorem submitInv_initial : SubmitInv initialSys :=
  ⟨by decide, fun _ => rfl⟩

/-- C14 (amended): `handleSubmit` checks nothing itself, it posts the payload
in every state.  The page enforces the precondition: after any sequence of
events, while the step is below 4 the submit event is not offered and changes
nothing, and when the step is not below 4 each of the 18 draft fields holds a
string other than the empty one. -/
theorem C14_precondition_held_by_page (events : List Event) :
    (∀ (s : WizardState) (r : HttpResult),
      ∃ rest, (handleSubmit s r).2 = Effect.postAssess (buildPayload s) :: rest) ∧
    ((run initialSys events).page.step < 4 →
      enabled (run initialSys events) Event.submit = false ∧
      stepEvent (run initialSys events) Event.submit = run initialSys events) ∧
    (¬ (run initialSys events).page.step < 4 →
      ∀ k ∈ formKeys, ∃ v, (run initialSys events).page.formData k = some v ∧ v ≠ "") := by
  refine ⟨fun s r => ⟨(handleSubmitSettle (handleSubmitStart s).1 r).2, ?_⟩, ?_, ?_⟩
  · simp [handleSubmit, handleSubmitStart]
  · intro hlt
    have hen : enabled (run initialSys events) Event.submit = false := by
      simp [enabled, hlt]
    exact ⟨hen, by simp [stepEvent, hen]⟩
  · intro hlast k hk
    obtain ⟨_, h4, _, hf1, hf2, hf3⟩ := wizardInv_run events initialSys wizardInv_initial
    have hk3 : k ∈ requiredStep1 ∨ k ∈ questionsStep2 ∨ k ∈ questionsStep3 := by
      revert k
      decide
    rcases hk3 with hk1 | hk2 | hk3
    · exact hf1 (by omega) k hk1
    · exact hf2 (by omega) k hk2
    · exact hf3 (by omega) k hk3

/-- C14 on the empty session (step 1, submit not offered) and on the Alex
session (step 4, `name` filled). -/
theorem C14_precondition_held_by_page_witness :
    ((run initialSys []).page.step < 4 ∧
      stepEvent (run initialSys []) Event.submit = run initialSys []) ∧
    (¬ (run initialSys alexSession).page.step < 4 ∧
      ∃ v, (run initialSys alexSession).page.formData "name" = some v ∧ v ≠ "") :=
  ⟨⟨by decide, ((C14_precondition_held_by_page []).2.1 (by decide)).2⟩,
   ⟨by decide, (C14_precondition_held_by_page alexSession).2.2 (by decide) "name"
      (by decide)⟩⟩

/-- C14 as stated fails: in the initial state (step 1, every field empty,
`validateStep` false) `handleSubmit` posts the payload all the same. -/
theorem C14_counterexample_initial_state :
    initialState.step = 1 ∧ validateStep initialState = false ∧
    (handleSubmit initialState (HttpResult.ok "abc123")).2 =
      [Effect.postAssess (buildPayload initialState),
       Effect.toastSuccess "Assessment completed successfully",
       Effect.navigate "/results/abc123"] := by
  refine ⟨rfl, by decide, by decide⟩

/-- C15: after any sequence of events at most one evaluation request is
outstanding, and while one is outstanding the busy flag is set, the submit
button is disabled and a submit attempt changes nothing. -/
theorem C15_single_submit_in_flight (events : List Event) :
    (run initialSys events).pendingSubmits.length ≤ 1 ∧
    ((run initialSys events).pendingSubmits ≠ [] →
      (run initialSys events).page.loading = true ∧
      enabled (run initialSys events) Event.submit = false ∧
      stepEvent (run initialSys events) Event.submit = run initialSys events) := by
  obtain ⟨hlen, hidle⟩ := submitInv_run events initialSys submitInv_initial
  refine ⟨hlen, fun hne => ?_⟩
  have hl : (run initialSys events).page.loading = true := by
    cases hload : (run initialSys events).page.loading with
    | true => rfl
    | false => exact absurd (hidle hload) hne
  have hen : enabled (run initialSys events) Event.submit = false := by
    simp [enabled, hl]
  exact ⟨hl, hen, by simp [stepEvent, hen]⟩

/-- C15 on the Alex session followed by two presses of the submit button: one
request is outstanding, not two. -/
theorem C15_single_submit_in_flight_witness :
    (run initialSys doubleSubmitSession).pendingSubmits ≠ [] ∧
    (run initialSys doubleSubmitSession).pendingSubmits.length ≤ 1 ∧
    (run initialSys doubleSubmitSession).page.loading = true :=
  have hne : (run initialSys doubleSubmitSession).pendingSubmits ≠ [] := by decide
  ⟨hne, (C15_single_submit_in_flight doubleSubmitSession).1,
   ((C15_single_submit_in_flight doubleSubmitSession).2 hne).1⟩

/-! ## Properties of the image handlers -/

/-- C16: when the upload request fails, `handleImageUpload` reports the error
toast and the stored reference is what it was before, so still unset if it was
unset; the failure branch itself returns the state it finds unchanged. -/
theorem C16_failed_upload_keeps_reference (s : WizardState) (f : File) :
    (handleImageUpload s (some f) HttpResult.error).2 =
      [Effect.postUploadImage f, Effect.toastError "Failed to upload image"] ∧
    (handleImageUpload s (some f) HttpResult.error).1.uploadedFilename
      = s.uploadedFilename ∧
    (s.uploadedFilename = none →
      (handleImageUpload s (some f) HttpResult.error).1.uploadedFilename = none) ∧
    (∀ t : WizardState, handleImageUploadSettle t HttpResult.error =
      (t, [Effect.toastError "Failed to upload image"])) := by
  refine ⟨rfl, rfl, fun h => ?_, fun t => rfl⟩
  rw [← h]
  rfl

/-- C16 on the Alex draft at the last step, which has no stored reference. -/
theorem C16_failed_upload_keeps_reference_witness :
    (alexAt 4).uploadedFilename = none ∧
    (handleImageUpload (alexAt 4) (some pickedFile) HttpResult.error).1.uploadedFilename
      = none :=
  ⟨rfl, (C16_failed_upload_keeps_reference (alexAt 4) pickedFile).2.2.1 rfl⟩

/-- C17: what the code does after a failed upload.  For every state and file
the image file is held afterwards; at the end of the session in which a file
is picked on the last step and its upload fails, the page holds the file with
no stored reference, Use Camera and Upload from Device are not offered, and
Remove & Recapture is. -/
theorem C17_failed_upload_hides_controls :
    (∀ (s : WizardState) (f : File),
      (handleImageUpload s (some f) HttpResult.error).1.imageFile = some f) ∧
    (run initialSys failedUploadSession).page.step = 4 ∧
    (run initialSys failedUploadSession).page.imageFile = some pickedFile ∧
    (run initialSys failedUploadSession).page.uploadedFilename = none ∧
    (run initialSys failedUploadSession).pendingUploads = [] ∧
    enabled (run initialSys failedUploadSession) Event.openCamera = false ∧
    enabled (run initialSys failedUploadSession) (Event.fileUpload [pickedFile]) = false ∧
    enabled (run initialSys failedUploadSession) Event.removeImage = true := by
  refine ⟨fun s f => rfl, by decide, by decide, by decide, by decide, by decide,
    by decide, by decide⟩

/-- C18: for a file and a successful response with `filename`,
`handleImageUpload` issues one upload request and ends with that filename as
the stored reference, the file held and `showCamera` false; `handleFileUpload`
on a non-empty file list and `handleCameraCapture` both start exactly this
upload; an absent file changes nothing and requests nothing. -/
theorem C18_successful_upload (s : WizardState) (f : File) (filename : String) :
    handleImageUpload s (some f) (HttpResult.ok filename) =
      ({ s with imageFile := some f, uploadedFilename := some filename, showCamera := false },
       [Effect.postUploadImage f, Effect.toastSuccess "Image uploaded successfully"]) ∧
    (∀ rest : List File, handleFileUpload s (f :: rest) = handleImageUploadStart s (some f)) ∧
    handleCameraCapture s (some f) = handleImageUploadStart s (some f) ∧
    (∀ t : WizardState,
      (handleImageUploadSettle t (HttpResult.ok filename)).1.uploadedFilename = some filename ∧
      (handleImageUploadSettle t (HttpResult.ok filename)).1.showCamera = false) ∧
    (∀ r : HttpResult, handleImageUpload s none r = (s, [])) ∧
    handleFileUpload s [] = (s, []) ∧
    handleCameraCapture s none = (s, []) := by
  refine ⟨rfl, fun rest => rfl, rfl, fun t => ⟨rfl, rfl⟩, fun r => rfl, rfl, rfl⟩

/-- C19: the remove button sets both the image file and the stored reference
to `null` and leaves the draft, the step, the busy flag and the camera flag
alone; a submit right after it posts `image_filename` `null`, and on the last
step Use Camera and Upload from Device are offered again. -/
theorem C19_remove_image (s : WizardState) :
    (removeImage s).uploadedFilename = none ∧
    (removeImage s).imageFile = none ∧
    (removeImage s).formData = s.formData ∧
    (removeImage s).step = s.step ∧
    (removeImage s).loading = s.loading ∧
    (removeImage s).showCamera = s.showCamera ∧
    (∀ r : HttpResult, ∃ p rest,
      (handleSubmit (removeImage s) r).2 = Effect.postAssess p :: rest ∧
      p.image_filename = none) ∧
    (∀ σ : Sys, σ.page.step = 4 →
      enabled (fire σ Event.removeImage) Event.openCamera = true ∧
      ∀ files, enabled (fire σ Event.removeImage) (Event.fileUpload files) = true) := by
  refine ⟨rfl, rfl, rfl, rfl, rfl, rfl, fun r => ?_, fun σ h => ?_⟩
  · refine ⟨buildPayload (removeImage s),
      (handleSubmitSettle (handleSubmitStart (removeImage s)).1 r).2, ?_, rfl⟩
    simp [handleSubmit, handleSubmitStart]
  · simp [enabled, fire, removeImage, h]

/-- C19 on the Alex draft at the last step with a stored image: after removal
the camera control is offered. -/
theorem C19_remove_image_witness :
    enabled
      (fire { initialSys with
              page := { alexAt 4 with imageFile := some pickedFile,
                                      uploadedFilename := some "u1.jpg" } }
        Event.removeImage) Event.openCamera = true :=
  ((C19_remove_image (alexAt 4)).2.2.2.2.2.2.2
    { initialSys with
      page := { alexAt 4 with imageFile := some pickedFile,
                              uploadedFilename := some "u1.jpg" } } rfl).1

theorem captureIdle_stepEvent (σ : Sys) (e : Event) (h : CaptureIdle σ)
    (he : e ≠ Event.removeImage) :
    CaptureIdle (stepEvent σ e) ∧
    (stepEvent σ e).pendingUploads.length ≤ σ.pendingUploads.length := by
  obtain ⟨hfile, hclosed, hnone⟩ := h
  have hnotnone : σ.page.imageFile.isNone = false := by
    cases hf : σ.page.imageFile with
    | none => simp [hf] at hfile
    | some f => rfl
  have hkeep : CaptureIdle σ ∧ σ.pendingUploads.length ≤ σ.pendingUploads.length :=
    ⟨⟨hfile, hclosed, hnone⟩, Nat.le_refl _⟩
  unfold stepEvent
  split_ifs with hc
  · simp only [Bool.and_eq_true] at hc
    obtain ⟨_, hen⟩ := hc
    cases e with
    | change field value => exact ⟨⟨hfile, hclosed, hnone⟩, Nat.le_refl _⟩
    | next =>
      simp only [fire, commit, handleNext]
      split_ifs <;> exact ⟨⟨hfile, hclosed, hnone⟩, Nat.le_refl _⟩
    | back =>
      simp only [fire, commit, handleBack]
      split_ifs <;> exact ⟨⟨hfile, hclosed, hnone⟩, Nat.le_refl _⟩
    | openCamera => simp [enabled, hnotnone] at hen
    | closeCamera => simp [enabled, hclosed] at hen
    | switchCamera => simp [enabled, hclosed] at hen
    | capture screenshot => simp [enabled, hclosed] at hen
    | retake => simp [enabled, hclosed] at hen
    | confirm => simp [enabled, hclosed] at hen
    | cameraCapture i => simp [enabled, hnone] at hen
    | fileUpload files => simp [enabled, hnotnone] at hen
    | removeImage => exact absurd rfl he
    | uploadSettled i r =>
      cases r with
      | ok filename =>
        refine ⟨⟨hfile, rfl, hnone⟩, ?_⟩
        simp only [fire, commit, handleImageUploadSettle, absorb, List.length_eraseIdx]
        split_ifs <;> omega
      | error =>
        refine ⟨⟨hfile, hclosed, hnone⟩, ?_⟩
        simp only [fire, commit, handleImageUploadSettle, absorb, List.length_eraseIdx]
        split_ifs <;> omega
    | submit => exact ⟨⟨hfile, hclosed, hnone⟩, Nat.le_refl _⟩
    | submitSettled i r =>
      cases r <;> exact ⟨⟨hfile, hclosed, hnone⟩, Nat.le_refl _⟩
  · exact hkeep

theorem captureIdle_run (events : List Event) (σ : Sys) (h : CaptureIdle σ)
    (hkeep : Event.removeImage ∉ events) :
    CaptureIdle (run σ events) ∧
    (run σ events).pendingUploads.length ≤ σ.pendingUploads.length := by
  induction events generalizing σ with
  | nil => exact ⟨h, Nat.le_refl _⟩
  | cons e rest ih =>
    have he : e ≠ Event.removeImage := fun heq => hkeep (heq ▸ List.mem_cons_self e rest)
    have hrest : Event.removeImage ∉ rest := fun hm => hkeep (List.mem_cons_of_mem e hm)
    obtain ⟨h1, hlen1⟩ := captureIdle_stepEvent σ e h he
    obtain ⟨h2, hlen2⟩ := ih (stepEvent σ e) h1 hrest
    exact ⟨h2, Nat.le_trans hlen2 hlen1⟩

/-- C20 (amended): the page keeps no record of a pending upload.  A started
upload holds the image file; and from any state that holds an image file with
the camera overlay closed and no Use Photo click still to deliver its file, no
sequence of events without Remove & Recapture starts an upload: the number of
uploads in flight never grows, and the file stays held with the overlay
closed. -/
theorem C20_no_upload_start_until_removed (σ : Sys) (events : List Event)
    (hfile : σ.page.imageFile.isSome = true) (hclosed : σ.page.showCamera = false)
    (hdelivered : σ.pendingCaptures = []) (hkeep : Event.removeImage ∉ events) :
    (run σ events).pendingUploads.length ≤ σ.pendingUploads.length ∧
    (run σ events).page.imageFile.isSome = true ∧
    (run σ events).page.showCamera = false ∧
    (run σ events).pendingCaptures = [] ∧
    (∀ (s : WizardState) (f : File),
      (handleImageUploadStart s (some f)).1.imageFile = some f) := by
  obtain ⟨⟨h1, h2, h3⟩, hlen⟩ := captureIdle_run events σ ⟨hfile, hclosed, hdelivered⟩ hkeep
  exact ⟨hlen, h1, h2, h3, fun s f => rfl⟩

/-- C20 right after a file was picked on the last step: Use Camera, taking a
photo, Use Photo, a delivery to `onCapture` and a second file selection start
no upload; one upload stays in flight. -/
theorem C20_no_upload_start_until_removed_witness :
    (run initialSys (alexSession ++ [Event.fileUpload [pickedFile]])).pendingUploads
      = [pickedFile] ∧
    (run (run initialSys (alexSession ++ [Event.fileUpload [pickedFile]]))
      [Event.openCamera, Event.capture (some screenshot), Event.confirm,
       Event.cameraCapture 0, Event.fileUpload [pickedFile]]).pendingUploads.length ≤
    (run initialSys (alexSession ++ [Event.fileUpload [pickedFile]])).pendingUploads.length :=
  ⟨by decide,
   (C20_no_upload_start_until_removed
    (run initialSys (alexSession ++ [Event.fileUpload [pickedFile]]))
    [Event.openCamera, Event.capture (some screenshot), Event.confirm,
     Event.cameraCapture 0, Event.fileUpload [pickedFile]]
    (by decide) (by decide) (by decide) (by decide)).1⟩

/-- C20 as stated fails.  With the camera overlay open and one upload in
flight Use Photo is still enabled, and pressing it again puts a second upload
in flight; the file of a Use Photo click also starts its upload when it is
delivered after the overlay was closed; and picking a file, removing it and
picking again gives two uploads as well. -/
theorem C20_counterexample_two_uploads :
    (run initialSys cameraUploadSession).pendingUploads = [cameraFile] ∧
    enabled (run initialSys cameraUploadSession) Event.confirm = true ∧
    (run initialSys doubleConfirmSession).pendingUploads = [cameraFile, cameraFile] ∧
    (run initialSys lateCaptureSession).page.showCamera = false ∧
    (run initialSys lateCaptureSession).pendingUploads = [cameraFile, cameraFile] ∧
    (run initialSys recaptureSession).pendingUploads = [pickedFile, pickedFile] := by
  refine ⟨by decide, by decide, by decide, by decide, by decide, by decide⟩

/-! ## Late upload responses, the initial state, bounded navigation -/

/-- C21 (amended): closing the camera overlay does not abandon an upload in
flight.  From any mounted state with the overlay open and an upload
outstanding, closing the overlay and then receiving the successful response
stores the returned filename as the image reference.  A response is ignored
only once the page has been left. -/
theorem C21_close_does_not_abandon_upload (σ : Sys) (i : Nat) (filename : String)
    (hmounted : σ.navigated = none) (hopen : σ.page.showCamera = true)
    (hpending : i < σ.pendingUploads.length) :
    (run σ [Event.closeCamera, Event.uploadSettled i (HttpResult.ok filename)]).page.uploadedFilename
      = some filename ∧
    (run σ [Event.closeCamera, Event.uploadSettled i (HttpResult.ok filename)]).pendingUploads
      = σ.pendingUploads.eraseIdx i ∧
    (∀ (τ : Sys) (e : Event), τ.navigated.isSome = true → stepEvent τ e = τ) := by
  refine ⟨?_, ?_, ?_⟩
  · simp [run, stepEvent, enabled, fire, commit, absorb, handleImageUploadSettle, hmounted,
      hopen, hpending]
  · simp [run, stepEvent, enabled, fire, commit, absorb, handleImageUploadSettle, hmounted,
      hopen, hpending]
  · intro τ e h
    cases hn : τ.navigated with
    | none => simp [hn] at h
    | some path => simp [stepEvent, hn]

/-- C21 after the camera upload session (camera opened, photo taken, Use
Photo pressed and delivered): closing and then a successful response stores
`"u1.jpg"`. -/
theorem C21_close_does_not_abandon_upload_witness :
    (run (run initialSys cameraUploadSession)
      [Event.closeCamera, Event.uploadSettled 0 (HttpResult.ok "u1.jpg")]).page.uploadedFilename
      = some "u1.jpg" :=
  (C21_close_does_not_abandon_upload (run initialSys cameraUploadSession)
    0 "u1.jpg" (by decide) (by decide) (by decide)).1

/-- C21 as stated fails: the overlay is closed while the upload is in flight
(no reference stored yet), and the success response that arrives afterwards
is stored as the image reference. -/
theorem C21_counterexample_late_response :
    (run initialSys (cameraUploadSession ++ [Event.closeCamera])).pendingUploads
      = [cameraFile] ∧
    (run initialSys (cameraUploadSession ++ [Event.closeCamera])).page.showCamera = false ∧
    (run initialSys (cameraUploadSession ++ [Event.closeCamera])).page.uploadedFilename
      = none ∧
    (run initialSys closeDuringUploadSession).page.uploadedFilename = some "u1.jpg" := by
  refine ⟨by decide, by decide, by decide, by decide⟩

/-- C22: the initial state is step 1 with each of the 18 draft keys mapped to
the empty string and no other key, no image file, no stored reference, the
camera closed and the busy flag false; `validateStep` is false there and
`handleNext` leaves the state as it is, reporting the validation error. -/
theorem C22_initial_state :
    initialState.step = 1 ∧
    formKeys.length = 18 ∧
    (∀ k ∈ formKeys, initialState.formData k = some "") ∧
    (∀ k, k ∉ formKeys → initialState.formData k = none) ∧
    initialState.imageFile = none ∧
    initialState.uploadedFilename = none ∧
    initialState.showCamera = false ∧
    initialState.loading = false ∧
    validateStep initialState = false ∧
    handleNext initialState =
      (initialState, [Effect.toastError "Please fill in all required fields"]) ∧
    (stepEvent initialSys Event.next).page.step = 1 := by
  refine ⟨rfl, rfl, by decide, ?_, rfl, rfl, rfl, rfl, by decide, ?_, by decide⟩
  · intro k hk
    simp [initialState, initialFormData, hk]
  · have hv : validateStep initialState = false := by decide
    simp [handleNext, hv, requiredFieldsMessage]

theorem stepEvent_step_near (σ : Sys) (e : Event) :
    (stepEvent σ e).page.step ≤ σ.page.step + 1 ∧
    σ.page.step ≤ (stepEvent σ e).page.step + 1 := by
  unfold stepEvent
  split_ifs with hc
  · cases e with
    | change field value => exact ⟨Nat.le_succ _, Nat.le_succ _⟩
    | next =>
      simp only [fire, commit_page, handleNext]
      split_ifs <;> constructor <;> simp only [] <;> omega
    | back =>
      simp only [fire, commit_page, handleBack]
      split_ifs <;> constructor <;> simp only [] <;> omega
    | openCamera => exact ⟨Nat.le_succ _, Nat.le_succ _⟩
    | closeCamera => exact ⟨Nat.le_succ _, Nat.le_succ _⟩
    | switchCamera => exact ⟨Nat.le_succ _, Nat.le_succ _⟩
    | capture screenshot => exact ⟨Nat.le_succ _, Nat.le_succ _⟩
    | retake => exact ⟨Nat.le_succ _, Nat.le_succ _⟩
    | confirm =>
      simp only [fire]
      split <;> exact ⟨Nat.le_succ _, Nat.le_succ _⟩
    | cameraCapture i =>
      simp only [fire]
      split
      · rename_i file _
        simp only [commit_page, handleCameraCapture,
          (handleImageUploadStart_frame σ.page (some file)).1]
        exact ⟨Nat.le_succ _, Nat.le_succ _⟩
      · exact ⟨Nat.le_succ _, Nat.le_succ _⟩
    | fileUpload files =>
      simp only [fire, commit_page, (handleFileUpload_frame σ.page files).1]
      exact ⟨Nat.le_succ _, Nat.le_succ _⟩
    | removeImage => exact ⟨Nat.le_succ _, Nat.le_succ _⟩
    | uploadSettled i r =>
      simp only [fire, commit_page, (handleImageUploadSettle_frame σ.page r).1]
      exact ⟨Nat.le_succ _, Nat.le_succ _⟩
    | submit => exact ⟨Nat.le_succ _, Nat.le_succ _⟩
    | submitSettled i r =>
      simp only [fire, commit_page, (handleSubmitSettle_frame σ.page r).1]
      exact ⟨Nat.le_succ _, Nat.le_succ _⟩
  · exact ⟨Nat.le_succ _, Nat.le_succ _⟩

/-- C23: after any sequence of events from the initial state the step is one
of 1, 2, 3, 4, and any single further event moves it by at most one. -/
theorem C23_navigation_bounded (events : List Event) :
    (1 ≤ (run initialSys events).page.step ∧ (run initialSys events).page.step ≤ 4) ∧
    ∀ e : Event,
      (stepEvent (run initialSys events) e).page.step ≤ (run initialSys events).page.step + 1 ∧
      (run initialSys events).page.step ≤ (stepEvent (run initialSys events) e).page.step + 1 := by
  obtain ⟨h1, h4, _⟩ := wizardInv_run events initialSys wizardInv_initial
  exact ⟨⟨h1, h4⟩, fun e => stepEvent_step_near _ e⟩

/-- C25: what the code does when an image is removed while its upload is in
flight and the upload then succeeds: the reference is stored although no image
file is held, the remove button is not offered, and a submit posts the
reference. -/
theorem C25_reference_without_file :
    (run initialSys removeDuringUploadSession).page.uploadedFilename = some "u1.jpg" ∧
    (run initialSys removeDuringUploadSession).page.imageFile = none ∧
    enabled (run initialSys removeDuringUploadSession) Event.removeImage = false ∧
    (buildPayload (run initialSys removeDuringUploadSession).page).image_filename
      = some "u1.jpg" := by
  refine ⟨by decide, by decide, by decide, by decide⟩

/-! ## Rounding zero -/

theorem roundHalfEven_zero : roundHalfEven 0 = 0 := by
  simp [roundHalfEven]

theorem fl_zero : fl 0 = 0 := by
  simp [fl, roundHalfEven_zero]

theorem mathRound_zero : mathRound 0 = 0 := by
  simp only [mathRound, zero_add]
  rw [Int.floor_eq_iff]
  norm_num

theorem round3_zero : round3 0 = 0 := by
  simp [round3, fl_zero, mathRound_zero]

theorem round2_zero : round2 0 = 0 := by
  simp [round2, fl_zero, mathRound_zero]

/-! ## What the rounding expressions compute -/

/-- The integer `roundHalfEven` picks is within one half of its argument. -/
theorem roundHalfEven_abs_sub_le (t : ℚ) : |(roundHalfEven t : ℚ) - t| ≤ 1 / 2 := by
  have h1 : (⌊t⌋ : ℚ) ≤ t := Int.floor_le t
  have h2 : t < ⌊t⌋ + 1 := Int.lt_floor_add_one t
  rw [abs_le]
  unfold roundHalfEven
  split_ifs with c1 c2 c3 <;> push_cast <;> constructor <;> linarith

/-- Rounding to binary64 moves a number by at most half a unit in its last
place: a relative `2 ^ (-53)`, or `2 ^ (-1075)` among the subnormals. -/
theorem fl_abs_sub_le (y : ℚ) : |fl y - y| ≤ |y| / 2 ^ 53 + 2 ^ (-1075 : ℤ) := by
  have htiny : (0 : ℚ) < 2 ^ (-1075 : ℤ) := zpow_pos (by norm_num) _
  rcases eq_or_ne y 0 with rfl | hy
  · rw [fl_zero]
    simp only [sub_zero, abs_zero, zero_div, zero_add]
    exact htiny.le
  · have hupos : (0 : ℚ) < 2 ^ ulpExp y := zpow_pos (by norm_num) _
    have habs : 0 < |y| := abs_pos.mpr hy
    have hR := roundHalfEven_abs_sub_le (y / 2 ^ ulpExp y)
    have herr : |fl y - y| ≤ 2 ^ ulpExp y / 2 := by
      have heq : fl y - y = ((roundHalfEven (y / 2 ^ ulpExp y) : ℚ) - y / 2 ^ ulpExp y)
          * 2 ^ ulpExp y := by
        unfold fl
        field_simp
      rw [heq, abs_mul, abs_of_pos hupos]
      calc |(roundHalfEven (y / 2 ^ ulpExp y) : ℚ) - y / 2 ^ ulpExp y| * 2 ^ ulpExp y
          ≤ 1 / 2 * 2 ^ ulpExp y := mul_le_mul_of_nonneg_right hR hupos.le
        _ = 2 ^ ulpExp y / 2 := by ring
    have hlog : (2 : ℚ) ^ Int.log 2 |y| ≤ |y| := by
      have := Int.zpow_log_le_self (R := ℚ) (b := 2) (by norm_num) habs
      exact_mod_cast this
    have hu : (2 : ℚ) ^ ulpExp y ≤ |y| / 2 ^ 52 + 2 ^ (-1074 : ℤ) := by
      have h1074 : (0 : ℚ) < 2 ^ (-1074 : ℤ) := zpow_pos (by norm_num) _
      unfold ulpExp
      rcases max_cases (Int.log 2 |y| - 52) (-1074) with ⟨hm, _⟩ | ⟨hm, _⟩
      · rw [hm, zpow_sub₀ (by norm_num : (2 : ℚ) ≠ 0)]
        have : (2 : ℚ) ^ (52 : ℤ) = 2 ^ 52 := by norm_cast
        rw [this]
        have : (2 : ℚ) ^ Int.log 2 |y| / 2 ^ 52 ≤ |y| / 2 ^ 52 :=
          div_le_div_of_nonneg_right hlog (by positivity)
        linarith
      · rw [hm]
        have : (0 : ℚ) ≤ |y| / 2 ^ 52 := by positivity
        linarith
    have hhalf : (2 : ℚ) ^ (-1074 : ℤ) / 2 = 2 ^ (-1075 : ℤ) := by
      rw [show (-1075 : ℤ) = -1074 - 1 by norm_num, zpow_sub₀ (by norm_num : (2 : ℚ) ≠ 0)]
      norm_num
    calc |fl y - y| ≤ 2 ^ ulpExp y / 2 := herr
      _ ≤ (|y| / 2 ^ 52 + 2 ^ (-1074 : ℤ)) / 2 := by linarith
      _ = |y| / 2 ^ 53 + 2 ^ (-1075 : ℤ) := by
          rw [add_div, hhalf]
          ring

/-- `Math.round` picks an integer within one half of its argument. -/
theorem mathRound_abs_sub_le (y : ℚ) : |(mathRound y : ℚ) - y| ≤ 1 / 2 := by
  have h1 : ((⌊y + 1 / 2⌋ : ℤ) : ℚ) ≤ y + 1 / 2 := Int.floor_le _
  have h2 : y + 1 / 2 < (⌊y + 1 / 2⌋ : ℤ) + 1 := Int.lt_floor_add_one _
  unfold mathRound
  rw [abs_le]
  constructor <;> linarith

/-- What "rounded to three decimals" is for `Math.round(x * 1000) / 1000`: the
result is the binary64 value nearest to `k / 1000`, where the integer `k` is
`x * 1000` rounded to the nearest integer, up to the binary64 rounding of the
product. -/
theorem round3_spec (x : ℚ) :
    ∃ k : ℤ, round3 x = fl ((k : ℚ) / 1000) ∧
      |(k : ℚ) - x * 1000| ≤ 1 / 2 + (|x * 1000| / 2 ^ 53 + 2 ^ (-1075 : ℤ)) ∧
      |round3 x - (k : ℚ) / 1000| ≤ |(k : ℚ) / 1000| / 2 ^ 53 + 2 ^ (-1075 : ℤ) := by
  refine ⟨mathRound (fl (x * 1000)), rfl, ?_, fl_abs_sub_le _⟩
  have h1 := mathRound_abs_sub_le (fl (x * 1000))
  have h2 := fl_abs_sub_le (x * 1000)
  calc |(mathRound (fl (x * 1000)) : ℚ) - x * 1000|
      = |((mathRound (fl (x * 1000)) : ℚ) - fl (x * 1000)) + (fl (x * 1000) - x * 1000)| := by
        congr 1
        ring
    _ ≤ |(mathRound (fl (x * 1000)) : ℚ) - fl (x * 1000)| + |fl (x * 1000) - x * 1000| :=
        abs_add _ _
    _ ≤ 1 / 2 + (|x * 1000| / 2 ^ 53 + 2 ^ (-1075 : ℤ)) := add_le_add h1 h2

/-- What "rounded to two decimals" is for `Math.round(x * 100) / 100`. -/
theorem round2_spec (x : ℚ) :
    ∃ k : ℤ, round2 x = fl ((k : ℚ) / 100) ∧
      |(k : ℚ) - x * 100| ≤ 1 / 2 + (|x * 100| / 2 ^ 53 + 2 ^ (-1075 : ℤ)) ∧
      |round2 x - (k : ℚ) / 100| ≤ |(k : ℚ) / 100| / 2 ^ 53 + 2 ^ (-1075 : ℤ) := by
  refine ⟨mathRound (fl (x * 100)), rfl, ?_, fl_abs_sub_le _⟩
  have h1 := mathRound_abs_sub_le (fl (x * 100))
  have h2 := fl_abs_sub_le (x * 100)
  calc |(mathRound (fl (x * 100)) : ℚ) - x * 100|
      = |((mathRound (fl (x * 100)) : ℚ) - fl (x * 100)) + (fl (x * 100) - x * 100)| := by
        congr 1
        ring
    _ ≤ |(mathRound (fl (x * 100)) : ℚ) - fl (x * 100)| + |fl (x * 100) - x * 100| :=
        abs_add _ _
    _ ≤ 1 / 2 + (|x * 100| / 2 ^ 53 + 2 ^ (-1075 : ℤ)) := add_le_add h1 h2

/-- End to end, `Math.round(x * 1000) / 1000` is within `0.0005`, one half of the
last of three decimals, of `x`, up to three binary64 roundings. -/
theorem round3_near (x : ℚ) : |round3 x - x| ≤ 1 / 2000 + (3 * |x| + 2) / 2 ^ 53 := by
  obtain ⟨k, hk, hkx, hkr⟩ := round3_spec x
  have htiny : (2 : ℚ) ^ (-1075 : ℤ) ≤ 1 / 2 ^ 54 := by
    have h := zpow_le_zpow_right₀ (a := (2 : ℚ)) (by norm_num) (show (-1075 : ℤ) ≤ -54 by norm_num)
    have h54 : (2 : ℚ) ^ (-54 : ℤ) = 1 / 2 ^ 54 := by
      rw [zpow_neg, one_div]
      norm_cast
    rwa [h54] at h
  have htiny0 : (0 : ℚ) ≤ 2 ^ (-1075 : ℤ) := (zpow_pos (by norm_num) _).le
  have hxs : |x * 1000| = 1000 * |x| := by
    rw [abs_mul, abs_of_pos (by norm_num : (0 : ℚ) < 1000)]
    ring
  have hks : |(k : ℚ) / 1000| = |(k : ℚ)| / 1000 := by
    rw [abs_div, abs_of_pos (by norm_num : (0 : ℚ) < 1000)]
  have hk1 : |(k : ℚ)| ≤ |(k : ℚ) - x * 1000| + |x * 1000| := by
    have := abs_add ((k : ℚ) - x * 1000) (x * 1000)
    simpa using this
  have hsplit : |round3 x - x| ≤ |round3 x - (k : ℚ) / 1000| + |(k : ℚ) - x * 1000| / 1000 := by
    have h1 := abs_add (round3 x - (k : ℚ) / 1000) ((k : ℚ) / 1000 - x)
    have h2 : round3 x - (k : ℚ) / 1000 + ((k : ℚ) / 1000 - x) = round3 x - x := by ring
    have h3 : |(k : ℚ) / 1000 - x| = |(k : ℚ) - x * 1000| / 1000 := by
      rw [show (k : ℚ) / 1000 - x = ((k : ℚ) - x * 1000) / 1000 by field_simp; ring, abs_div,
        abs_of_pos (by norm_num : (0 : ℚ) < 1000)]
    rw [h2] at h1
    rw [h3] at h1
    exact h1
  rw [hxs] at hkx hk1
  rw [hks] at hkr
  have hx0 : 0 ≤ |x| := abs_nonneg x
  have hexp : (2 : ℚ) ^ 53 = 9007199254740992 := by norm_num
  have hexp2 : (2 : ℚ) ^ 54 = 18014398509481984 := by norm_num
  rw [hexp] at hkx hkr ⊢
  rw [hexp2] at htiny
  have hkk : 0 ≤ |(k : ℚ) - x * 1000| := abs_nonneg _
  have hk0 : 0 ≤ |(k : ℚ)| := abs_nonneg _
  have hdiv1 : |(k : ℚ) - x * 1000| / 1000 ≤
      (1 / 2 + (1000 * |x| / 9007199254740992 + 2 ^ (-1075 : ℤ))) / 1000 :=
    div_le_div_of_nonneg_right hkx (by norm_num)
  have hdiv2 : |(k : ℚ)| / 1000 / 9007199254740992 ≤
      (1 / 2 + (1000 * |x| / 9007199254740992 + 2 ^ (-1075 : ℤ)) + 1000 * |x|) / 1000
        / 9007199254740992 := by
    apply div_le_div_of_nonneg_right _ (by norm_num)
    apply div_le_div_of_nonneg_right _ (by norm_num)
    linarith
  have hgoal : |round3 x - x| ≤
      (1 / 2 + (1000 * |x| / 9007199254740992 + 2 ^ (-1075 : ℤ)) + 1000 * |x|) / 1000
        / 9007199254740992 + 2 ^ (-1075 : ℤ) +
      (1 / 2 + (1000 * |x| / 9007199254740992 + 2 ^ (-1075 : ℤ))) / 1000 := by
    linarith
  refine le_trans hgoal ?_
  generalize (2 : ℚ) ^ (-1075 : ℤ) = t at htiny htiny0
  have : (1 / 2 + (1000 * |x| / 9007199254740992 + t) + 1000 * |x|) / 1000 / 9007199254740992
      + t + (1 / 2 + (1000 * |x| / 9007199254740992 + t)) / 1000
      = 1 / 2000 + |x| * (2 / 9007199254740992 + 1 / 9007199254740992 ^ 2)
        + 1 / (2000 * 9007199254740992)
        + t * (1 + 1 / 1000 + 1 / (1000 * 9007199254740992)) := by
    field_simp
    ring
  rw [this]
  have ht1 : t * (1 + 1 / 1000 + 1 / (1000 * 9007199254740992)) ≤ t * 2 := by
    apply mul_le_mul_of_nonneg_left _ htiny0
    norm_num
  have hx1 : |x| * (2 / 9007199254740992 + 1 / 9007199254740992 ^ 2)
      ≤ |x| * (3 / 9007199254740992) := by
    apply mul_le_mul_of_nonneg_left _ hx0
    norm_num
  have hsmall : (1 : ℚ) / (2000 * 9007199254740992) ≤ 1 / 9007199254740992 := by norm_num
  have : (3 * |x| + 2) / 9007199254740992
      = |x| * (3 / 9007199254740992) + 2 / 9007199254740992 := by ring
  rw [this]
  linarith

/-- End to end, `Math.round(x * 100) / 100` is within `0.005`, one half of the
last of two decimals, of `x`, up to three binary64 roundings. -/
theorem round2_near (x : ℚ) : |round2 x - x| ≤ 1 / 200 + (3 * |x| + 2) / 2 ^ 53 := by
  obtain ⟨k, hk, hkx, hkr⟩ := round2_spec x
  have htiny : (2 : ℚ) ^ (-1075 : ℤ) ≤ 1 / 2 ^ 54 := by
    have h := zpow_le_zpow_right₀ (a := (2 : ℚ)) (by norm_num) (show (-1075 : ℤ) ≤ -54 by norm_num)
    have h54 : (2 : ℚ) ^ (-54 : ℤ) = 1 / 2 ^ 54 := by
      rw [zpow_neg, one_div]
      norm_cast
    rwa [h54] at h
  have htiny0 : (0 : ℚ) ≤ 2 ^ (-1075 : ℤ) := (zpow_pos (by norm_num) _).le
  have hxs : |x * 100| = 100 * |x| := by
    rw [abs_mul, abs_of_pos (by norm_num : (0 : ℚ) < 100)]
    ring
  have hks : |(k : ℚ) / 100| = |(k : ℚ)| / 100 := by
    rw [abs_div, abs_of_pos (by norm_num : (0 : ℚ) < 100)]
  have hk1 : |(k : ℚ)| ≤ |(k : ℚ) - x * 100| + |x * 100| := by
    have := abs_add ((k : ℚ) - x * 100) (x * 100)
    simpa using this
  have hsplit : |round2 x - x| ≤ |round2 x - (k : ℚ) / 100| + |(k : ℚ) - x * 100| / 100 := by
    have h1 := abs_add (round2 x - (k : ℚ) / 100) ((k : ℚ) / 100 - x)
    have h2 : round2 x - (k : ℚ) / 100 + ((k : ℚ) / 100 - x) = round2 x - x := by ring
    have h3 : |(k : ℚ) / 100 - x| = |(k : ℚ) - x * 100| / 100 := by
      rw [show (k : ℚ) / 100 - x = ((k : ℚ) - x * 100) / 100 by field_simp; ring, abs_div,
        abs_of_pos (by norm_num : (0 : ℚ) < 100)]
    rw [h2] at h1
    rw [h3] at h1
    exact h1
  rw [hxs] at hkx hk1
  rw [hks] at hkr
  have hx0 : 0 ≤ |x| := abs_nonneg x
  have hexp : (2 : ℚ) ^ 53 = 9007199254740992 := by norm_num
  have hexp2 : (2 : ℚ) ^ 54 = 18014398509481984 := by norm_num
  rw [hexp] at hkx hkr ⊢
  rw [hexp2] at htiny
  have hkk : 0 ≤ |(k : ℚ) - x * 100| := abs_nonneg _
  have hk0 : 0 ≤ |(k : ℚ)| := abs_nonneg _
  have hdiv1 : |(k : ℚ) - x * 100| / 100 ≤
      (1 / 2 + (100 * |x| / 9007199254740992 + 2 ^ (-1075 : ℤ))) / 100 :=
    div_le_div_of_nonneg_right hkx (by norm_num)
  have hdiv2 : |(k : ℚ)| / 100 / 9007199254740992 ≤
      (1 / 2 + (100 * |x| / 9007199254740992 + 2 ^ (-1075 : ℤ)) + 100 * |x|) / 100
        / 9007199254740992 := by
    apply div_le_div_of_nonneg_right _ (by norm_num)
    apply div_le_div_of_nonneg_right _ (by norm_num)
    linarith
  have hgoal : |round2 x - x| ≤
      (1 / 2 + (100 * |x| / 9007199254740992 + 2 ^ (-1075 : ℤ)) + 100 * |x|) / 100
        / 9007199254740992 + 2 ^ (-1075 : ℤ) +
      (1 / 2 + (100 * |x| / 9007199254740992 + 2 ^ (-1075 : ℤ))) / 100 := by
    linarith
  refine le_trans hgoal ?_
  generalize (2 : ℚ) ^ (-1075 : ℤ) = t at htiny htiny0
  have : (1 / 2 + (100 * |x| / 9007199254740992 + t) + 100 * |x|) / 100 / 9007199254740992
      + t + (1 / 2 + (100 * |x| / 9007199254740992 + t)) / 100
      = 1 / 200 + |x| * (2 / 9007199254740992 + 1 / 9007199254740992 ^ 2)
        + 1 / (200 * 9007199254740992)
        + t * (1 + 1 / 100 + 1 / (100 * 9007199254740992)) := by
    field_simp
    ring
  rw [this]
  have ht1 : t * (1 + 1 / 100 + 1 / (100 * 9007199254740992)) ≤ t * 2 := by
    apply mul_le_mul_of_nonneg_left _ htiny0
    norm_num
  have hx1 : |x| * (2 / 9007199254740992 + 1 / 9007199254740992 ^ 2)
      ≤ |x| * (3 / 9007199254740992) := by
    apply mul_le_mul_of_nonneg_left _ hx0
    norm_num
  have hsmall : (1 : ℚ) / (200 * 9007199254740992) ≤ 1 / 9007199254740992 := by norm_num
  have : (3 * |x| + 2) / 9007199254740992
      = |x| * (3 / 9007199254740992) + 2 / 9007199254740992 := by ring
  rw [this]
  linarith

/-! ## Properties of the chart data builders -/

/-- C28: `buildMetricsChartData` returns the empty list when `testMetrics` is
absent; otherwise it returns exactly the four rows Accuracy, Precision,
Recall, F1 Score in that order, each with a `test` Number, so the filter
removes nothing; a key missing from `testMetrics` gives `test` 0; and `train`
is `null` in every row exactly when `trainMetrics` is absent. -/
theorem C28_metrics_chart (tm : Metrics) (trainMetrics : Option Metrics) :
    buildMetricsChartData none trainMetrics = [] ∧
    buildMetricsChartData (some tm) trainMetrics =
      [("Accuracy", "accuracy"), ("Precision", "precision"), ("Recall", "recall"),
       ("F1 Score", "f1_score")].map (fun nk =>
        ({ name := some nk.1
           test := some (round3 ((tm nk.2).getD 0))
           train := trainMetrics.map (fun trm => round3 ((trm nk.2).getD 0)) } : MetricRow)) ∧
    (buildMetricsChartData (some tm) trainMetrics).map (fun d => d.name) =
      [some "Accuracy", some "Precision", some "Recall", some "F1 Score"] ∧
    (∀ d ∈ buildMetricsChartData (some tm) trainMetrics, d.test ≠ none) ∧
    (∀ key, tm key = none → round3 ((tm key).getD 0) = 0) ∧
    ((∀ d ∈ buildMetricsChartData (some tm) trainMetrics, d.train = none) ↔
      trainMetrics = none) := by
  have hbuild : buildMetricsChartData (some tm) trainMetrics =
      [("Accuracy", "accuracy"), ("Precision", "precision"), ("Recall", "recall"),
       ("F1 Score", "f1_score")].map (fun nk =>
        ({ name := some nk.1
           test := some (round3 ((tm nk.2).getD 0))
           train := trainMetrics.map (fun trm => round3 ((trm nk.2).getD 0)) } : MetricRow)) := by
    cases trainMetrics <;> simp [buildMetricsChartData, List.enum, List.enumFrom]
  refine ⟨rfl, hbuild, ?_, ?_, ?_, ?_⟩
  · rw [hbuild]
    rfl
  · rw [hbuild]
    intro d hd
    simp only [List.map_cons, List.map_nil, List.mem_cons, List.mem_singleton,
      List.not_mem_nil, or_false] at hd
    rcases hd with rfl | rfl | rfl | rfl <;> simp
  · intro key hkey
    rw [hkey]
    exact round3_zero
  · rw [hbuild]
    cases trainMetrics <;> simp

/-- C30: `buildRocData` returns the empty list when `roc`, `roc.fpr` or
`roc.tpr` is absent; otherwise it returns one point per element of `roc.fpr`,
in order, the point at index `i` pairing the rounded `fpr[i]` with the rounded
`tpr[i]`, with 0 in place of a missing `tpr[i]` (so `tpr` 0 in the point);
elements of `roc.tpr` beyond the length of `roc.fpr` play no part.  Rounded
means rounded to two decimals: the rounded `x` is the binary64 value nearest
to `k / 100` for an integer `k` within one half of `x * 100`, and so within
0.005 of `x`, each up to binary64 rounding error. -/
theorem C30_roc_data (fpr tpr : List ℚ) :
    buildRocData none = [] ∧
    (∀ t : Option (List ℚ), buildRocData (some { fpr := none, tpr := t }) = []) ∧
    (∀ f : Option (List ℚ), buildRocData (some { fpr := f, tpr := none }) = []) ∧
    (buildRocData (some { fpr := some fpr, tpr := some tpr })).length = fpr.length ∧
    (∀ (i : Nat) (x : ℚ), fpr[i]? = some x →
      (buildRocData (some { fpr := some fpr, tpr := some tpr }))[i]? =
        some ({ fpr := round2 x, tpr := round2 ((tpr[i]?).getD 0) } : RocPoint)) ∧
    (∀ (i : Nat) (x : ℚ), fpr[i]? = some x → tpr.length ≤ i →
      (buildRocData (some { fpr := some fpr, tpr := some tpr }))[i]? =
        some ({ fpr := round2 x, tpr := 0 } : RocPoint)) ∧
    buildRocData (some { fpr := some fpr, tpr := some (tpr.take fpr.length) }) =
      buildRocData (some { fpr := some fpr, tpr := some tpr }) ∧
    (∀ x : ℚ, ∃ k : ℤ, round2 x = fl ((k : ℚ) / 100) ∧
      |(k : ℚ) - x * 100| ≤ 1 / 2 + (|x * 100| / 2 ^ 53 + 2 ^ (-1075 : ℤ)) ∧
      |round2 x - (k : ℚ) / 100| ≤ |(k : ℚ) / 100| / 2 ^ 53 + 2 ^ (-1075 : ℤ)) ∧
    (∀ x : ℚ, |round2 x - x| ≤ 1 / 200 + (3 * |x| + 2) / 2 ^ 53) := by
  have hget : ∀ (i : Nat) (x : ℚ), fpr[i]? = some x →
      (buildRocData (some { fpr := some fpr, tpr := some tpr }))[i]? =
        some ({ fpr := round2 x, tpr := round2 ((tpr[i]?).getD 0) } : RocPoint) := by
    intro i x hx
    simp [buildRocData, List.getElem?_map, List.getElem?_enum, hx]
  refine ⟨rfl, fun t => ?_, fun f => ?_, ?_, hget, ?_, ?_, round2_spec, round2_near⟩
  · cases t <;> rfl
  · cases f <;> rfl
  · simp [buildRocData]
  · intro i x hx hi
    rw [hget i x hx, List.getElem?_eq_none hi]
    simp [round2_zero]
  · simp only [buildRocData]
    apply List.map_congr_left
    intro ix hix
    have hlt : ix.1 < fpr.length := by
      obtain ⟨i, x⟩ := ix
      have := List.mk_mem_enum_iff_getElem?.mp hix
      exact (List.getElem?_eq_some_iff.mp this).1
    simp [List.getElem?_take, hlt]

theorem byValueDesc_total (a b : FeatureRow) : byValueDesc a b ∨ byValueDesc b a := by
  unfold byValueDesc
  rcases le_total a.value b.value with h | h
  · right
    linarith
  · left
    linarith

theorem byValueDesc_trans (a b c : FeatureRow) (hab : byValueDesc a b)
    (hbc : byValueDesc b c) : byValueDesc a c := by
  unfold byValueDesc at *
  linarith

/-- C26: `buildFeatureImportanceData` returns the empty list for an absent or
non-object input; for an object with `n` entries it returns `min 12 n` rows,
in order of non-increasing value, which together with the omitted rows are a
rearrangement of the input entries with their values rounded, and no omitted
row has a value above that of a returned row.  Each returned row is the name
of an input entry with its value rounded to three decimals: the rounded `x`
is the binary64 value nearest to `k / 1000` for an integer `k` within one half
of `x * 1000`, and so within 0.0005 of `x`, each up to binary64 rounding
error. -/
theorem C26_feature_importance (entries : List (String × ℚ)) :
    buildFeatureImportanceData FeatureInput.absent = [] ∧
    buildFeatureImportanceData FeatureInput.nonObject = [] ∧
    (buildFeatureImportanceData (FeatureInput.object entries)).length
      = min 12 entries.length ∧
    (buildFeatureImportanceData (FeatureInput.object entries)).Sorted
      (fun a b => b.value ≤ a.value) ∧
    (∃ omitted : List FeatureRow,
      (buildFeatureImportanceData (FeatureInput.object entries) ++ omitted).Perm
        (entries.map (fun nv => ({ name := nv.1, value := round3 nv.2 } : FeatureRow))) ∧
      ∀ x ∈ omitted, ∀ y ∈ buildFeatureImportanceData (FeatureInput.object entries),
        x.value ≤ y.value) ∧
    (∀ row ∈ buildFeatureImportanceData (FeatureInput.object entries),
      ∃ nv ∈ entries, row.name = nv.1 ∧ row.value = round3 nv.2 ∧
        |row.value - nv.2| ≤ 1 / 2000 + (3 * |nv.2| + 2) / 2 ^ 53) ∧
    (∀ x : ℚ, ∃ k : ℤ, round3 x = fl ((k : ℚ) / 1000) ∧
      |(k : ℚ) - x * 1000| ≤ 1 / 2 + (|x * 1000| / 2 ^ 53 + 2 ^ (-1075 : ℤ)) ∧
      |round3 x - (k : ℚ) / 1000| ≤ |(k : ℚ) / 1000| / 2 ^ 53 + 2 ^ (-1075 : ℤ)) := by
  haveI : IsTotal FeatureRow byValueDesc := ⟨byValueDesc_total⟩
  haveI : IsTrans FeatureRow byValueDesc := ⟨byValueDesc_trans⟩
  have hsorted := List.sorted_insertionSort byValueDesc
    (entries.map (fun nv => ({ name := nv.1, value := round3 nv.2 } : FeatureRow)))
  have hperm := List.perm_insertionSort byValueDesc
    (entries.map (fun nv => ({ name := nv.1, value := round3 nv.2 } : FeatureRow)))
  have hle : ∀ a b : FeatureRow, byValueDesc a b → b.value ≤ a.value := by
    intro a b h
    unfold byValueDesc at h
    linarith
  refine ⟨rfl, rfl, ?_, ?_, ?_, ?_, round3_spec⟩
  · simp [buildFeatureImportanceData, List.length_take, List.length_insertionSort]
  · simp only [buildFeatureImportanceData]
    exact (List.Pairwise.imp (fun {a b} h => hle a b h) hsorted).sublist (List.take_sublist _ _)
  · refine ⟨(List.insertionSort byValueDesc
      (entries.map (fun nv => ({ name := nv.1, value := round3 nv.2 } : FeatureRow)))).drop 12,
      ?_, ?_⟩
    · simp only [buildFeatureImportanceData, List.take_append_drop]
      exact hperm
    · intro x hx y hy
      simp only [buildFeatureImportanceData] at hy
      have hsplit := hsorted
      rw [← List.take_append_drop 12 (List.insertionSort byValueDesc
        (entries.map (fun nv => ({ name := nv.1, value := round3 nv.2 } : FeatureRow))))] at hsplit
      exact hle y x ((List.pairwise_append.mp hsplit).2.2 y hy x hx)
  · intro row hrow
    simp only [buildFeatureImportanceData] at hrow
    have hmem := hperm.subset ((List.take_sublist _ _).subset hrow)
    obtain ⟨nv, hnv, rfl⟩ := List.mem_map.mp hmem
    exact ⟨nv, hnv, rfl, rfl, round3_near nv.2⟩

/-! ## Properties of the history view -/

theorem orderedInsert_congr {α : Type} (r s : α → α → Prop) [DecidableRel r] [DecidableRel s]
    (a : α) (l : List α) (h : ∀ b ∈ l, (r a b ↔ s a b)) :
    l.orderedInsert r a = l.orderedInsert s a := by
  induction l with
  | nil => rfl
  | cons b t ih =>
    have hb := h b (List.mem_cons_self b t)
    have ht := ih (fun c hc => h c (List.mem_cons_of_mem b hc))
    by_cases hr : r a b
    · simp [List.orderedInsert, hr, hb.mp hr]
    · have hs : ¬ s a b := fun hs => hr (hb.mpr hs)
      simp [List.orderedInsert, hr, hs, ht]

theorem insertionSort_congr {α : Type} (r s : α → α → Prop) [DecidableRel r] [DecidableRel s]
    (l : List α) (h : ∀ a ∈ l, ∀ b ∈ l, (r a b ↔ s a b)) :
    l.insertionSort r = l.insertionSort s := by
  induction l with
  | nil => rfl
  | cons a t ih =>
    have ht := ih (fun x hx y hy =>
      h x (List.mem_cons_of_mem a hx) y (List.mem_cons_of_mem a hy))
    simp only [List.insertionSort, ht]
    apply orderedInsert_congr
    intro b hb
    have hbt : b ∈ t := (List.perm_insertionSort s t).subset hb
    exact h a (List.mem_cons_self a t) b (List.mem_cons_of_mem a hbt)

/-- C27: when the service returns a list in which every timestamp is a valid
date, the displayed list is a rearrangement of it in which the time values,
read in display order, never increase. -/
theorem C27_history_newest_first (data : List Assessment)
    (hvalid : ∀ a ∈ data, a.timeValue ≠ none) :
    (fetchAssessments (some data)).assessments.Perm data ∧
    ∃ times : List Int,
      (fetchAssessments (some data)).assessments.map (fun a => a.timeValue)
        = times.map some ∧
      times.Sorted (fun x y => y ≤ x) := by
  let s : Assessment → Assessment → Prop :=
    fun a b => b.timeValue.getD 0 ≤ a.timeValue.getD 0
  haveI : DecidableRel s := fun a b =>
    inferInstanceAs (Decidable (b.timeValue.getD 0 ≤ a.timeValue.getD 0))
  haveI : IsTotal Assessment s := ⟨fun a b => le_total _ _⟩
  haveI : IsTrans Assessment s := ⟨fun a b c hab hbc => le_trans hbc hab⟩
  have hrs : ∀ a ∈ data, ∀ b ∈ data, (newestFirst a b ↔ s a b) := by
    intro a ha b hb
    obtain ⟨ta, hta⟩ := Option.ne_none_iff_exists'.mp (hvalid a ha)
    obtain ⟨tb, htb⟩ := Option.ne_none_iff_exists'.mp (hvalid b hb)
    simp only [newestFirst, compareNewestFirst, hta, htb, s, Option.getD_some]
    omega
  have heq : data.insertionSort newestFirst = data.insertionSort s :=
    insertionSort_congr newestFirst s data hrs
  have hperm : (data.insertionSort newestFirst).Perm data :=
    List.perm_insertionSort newestFirst data
  have hsorted : (data.insertionSort newestFirst).Sorted s := by
    rw [heq]
    exact List.sorted_insertionSort s data
  refine ⟨hperm, (data.insertionSort newestFirst).map (fun a => a.timeValue.getD 0), ?_, ?_⟩
  · simp only [fetchAssessments, List.map_map]
    apply List.map_congr_left
    intro a ha
    obtain ⟨ta, hta⟩ := Option.ne_none_iff_exists'.mp (hvalid a (hperm.subset ha))
    simp [hta]
  · exact (List.pairwise_map).mpr hsorted

/-! ## Properties of the confusion-matrix heatmap -/

/-- C24: what the guard of `ConfusionMatrixHeatmap` lets through.  A matrix
that renders has two rows and a first row of two entries, but the second row
is not tested: with a second row of three entries the component renders, and
with a second row of one entry it renders with `tp` undefined and `maxVal`
`NaN`. -/
theorem C24_second_row_unchecked :
    (∀ (m : List (List Nat)) (h : Heatmap), ConfusionMatrixHeatmap (some m) = some h →
      m.length = 2 ∧ (m.getD 0 []).length = 2) ∧
    ConfusionMatrixHeatmap none = none ∧
    ConfusionMatrixHeatmap (some [[1, 2], [3, 4, 5]]) =
      some { tn := some 1, fp := some 2, fn := some 3, tp := some 4, maxVal := some 4 } ∧
    ConfusionMatrixHeatmap (some [[1, 2], [3]]) =
      some { tn := some 1, fp := some 2, fn := some 3, tp := none, maxVal := none } := by
  refine ⟨?_, rfl, by decide, by decide⟩
  intro m h hm
  unfold ConfusionMatrixHeatmap at hm
  simp only at hm
  split_ifs at hm with hc
  push_neg at hc
  exact hc

/-! ## Properties of binary64 rounding -/

theorem roundHalfEven_eq_of_near (x : ℚ) (n : ℤ) (h1 : (n : ℚ) - 1 / 2 < x)
    (h2 : x < n + 1 / 2) : roundHalfEven x = n := by
  by_cases hn : (n : ℚ) ≤ x
  · have hfloor : ⌊x⌋ = n := by
      rw [Int.floor_eq_iff]
      constructor
      · exact hn
      · linarith
    unfold roundHalfEven
    rw [hfloor]
    have : x - (n : ℚ) < 1 / 2 := by linarith
    rw [if_pos this]
  · have hfloor : ⌊x⌋ = n - 1 := by
      rw [Int.floor_eq_iff]
      push_cast
      constructor
      · linarith
      · linarith
    unfold roundHalfEven
    rw [hfloor]
    have h3 : ¬ (x - ((n - 1 : ℤ) : ℚ) < 1 / 2) := by
      push_cast
      linarith
    have h4 : 1 / 2 < x - ((n - 1 : ℤ) : ℚ) := by
      push_cast
      linarith
    rw [if_neg h3, if_pos h4]
    omega

theorem roundHalfEven_intCast (n : ℤ) : roundHalfEven (n : ℚ) = n :=
  roundHalfEven_eq_of_near _ n (by linarith) (by linarith)

theorem roundHalfEven_tie_even (n : ℤ) (x : ℚ) (hx : x = n + 1 / 2) (hn : n % 2 = 0) :
    roundHalfEven x = n := by
  have hfloor : ⌊x⌋ = n := by
    rw [Int.floor_eq_iff]
    constructor <;> linarith
  unfold roundHalfEven
  rw [hfloor]
  have h1 : ¬ (x - (n : ℚ) < 1 / 2) := by linarith
  have h2 : ¬ (1 / 2 < x - (n : ℚ)) := by linarith
  rw [if_neg h1, if_neg h2, if_pos hn]

theorem roundHalfEven_tie_odd (n : ℤ) (x : ℚ) (hx : x = n + 1 / 2) (hn : n % 2 = 1) :
    roundHalfEven x = n + 1 := by
  have hfloor : ⌊x⌋ = n := by
    rw [Int.floor_eq_iff]
    constructor <;> linarith
  unfold roundHalfEven
  rw [hfloor]
  have h1 : ¬ (x - (n : ℚ) < 1 / 2) := by linarith
  have h2 : ¬ (1 / 2 < x - (n : ℚ)) := by linarith
  have h3 : ¬ (n % 2 = 0) := by omega
  rw [if_neg h1, if_neg h2, if_neg h3]

theorem floor_le_roundHalfEven (x : ℚ) : ⌊x⌋ ≤ roundHalfEven x := by
  unfold roundHalfEven
  split_ifs <;> omega

theorem roundHalfEven_le_floor_succ (x : ℚ) : roundHalfEven x ≤ ⌊x⌋ + 1 := by
  unfold roundHalfEven
  split_ifs <;> omega

theorem roundHalfEven_mono {x y : ℚ} (h : x ≤ y) : roundHalfEven x ≤ roundHalfEven y := by
  have hfl : ⌊x⌋ ≤ ⌊y⌋ := Int.floor_mono h
  rcases lt_or_eq_of_le hfl with hlt | heq
  · calc roundHalfEven x ≤ ⌊x⌋ + 1 := roundHalfEven_le_floor_succ x
      _ ≤ ⌊y⌋ := hlt
      _ ≤ roundHalfEven y := floor_le_roundHalfEven y
  · unfold roundHalfEven
    rw [← heq]
    split_ifs <;> first | omega | (exfalso; linarith)

theorem two_zpow_pos (k : ℤ) : (0 : ℚ) < 2 ^ k := zpow_pos (by norm_num) k

theorem ulpExp_of_bounds (x : ℚ) (e : ℤ) (hlo : (2 : ℚ) ^ e ≤ x) (hhi : x < 2 ^ (e + 1)) :
    ulpExp x = max (e - 52) (-1074) := by
  have hx : 0 < x := lt_of_lt_of_le (two_zpow_pos e) hlo
  have habs : |x| = x := abs_of_pos hx
  have h1 : e ≤ Int.log 2 x := by
    rw [← Int.zpow_le_iff_le_log (by norm_num) hx]
    exact_mod_cast hlo
  have h2 : Int.log 2 x < e + 1 := by
    rw [← Int.lt_zpow_iff_log_lt (by norm_num) hx]
    exact_mod_cast hhi
  have h3 : Int.log 2 x = e := by omega
  rw [ulpExp, habs, h3]

theorem fl_of_bounds (x : ℚ) (e : ℤ) (hlo : (2 : ℚ) ^ e ≤ x) (hhi : x < 2 ^ (e + 1)) :
    fl x = roundHalfEven (x / 2 ^ max (e - 52) (-1074)) * 2 ^ max (e - 52) (-1074) := by
  rw [fl, ulpExp_of_bounds x e hlo hhi]

theorem fl_nonneg {x : ℚ} (hx : 0 ≤ x) : 0 ≤ fl x := by
  unfold fl
  have h0 : (0 : ℚ) ≤ x / 2 ^ ulpExp x := div_nonneg hx (two_zpow_pos _).le
  have h1 : roundHalfEven 0 ≤ roundHalfEven (x / 2 ^ ulpExp x) := roundHalfEven_mono h0
  rw [roundHalfEven_zero] at h1
  exact mul_nonneg (by exact_mod_cast h1) (two_zpow_pos _).le

theorem ulpExp_mono {x y : ℚ} (hx : 0 < x) (h : x ≤ y) : ulpExp x ≤ ulpExp y := by
  unfold ulpExp
  have hy : 0 < y := lt_of_lt_of_le hx h
  rw [abs_of_pos hx, abs_of_pos hy]
  have := Int.log_mono_right (b := 2) hx h
  exact max_le_max (by omega) (le_refl _)

theorem two_zpow_eq_intCast (k : ℤ) (hk : 0 ≤ k) :
    (2 : ℚ) ^ k = (((2 : ℤ) ^ k.toNat : ℤ) : ℚ) := by
  obtain ⟨n, rfl⟩ := Int.eq_ofNat_of_zero_le hk
  simp [zpow_natCast]

theorem fl_le_two_zpow {x : ℚ} (hx : 0 < x) : fl x ≤ 2 ^ (Int.log 2 x + 1) := by
  have hhi : x < 2 ^ (Int.log 2 x + 1) := by
    have := Int.lt_zpow_succ_log_self (R := ℚ) (b := 2) (by norm_num) x
    exact_mod_cast this
  have hu : ulpExp x = max (Int.log 2 x - 52) (-1074) := by
    rw [ulpExp, abs_of_pos hx]
  have hupos := two_zpow_pos (ulpExp x)
  have hdiv : x / 2 ^ ulpExp x < 2 ^ (Int.log 2 x + 1 - ulpExp x) := by
    rw [zpow_sub₀ (by norm_num : (2 : ℚ) ≠ 0)]
    exact div_lt_div_of_pos_right hhi hupos
  by_cases hk : 0 ≤ Int.log 2 x + 1 - ulpExp x
  · rw [two_zpow_eq_intCast _ hk] at hdiv
    have hR := roundHalfEven_mono hdiv.le
    rw [roundHalfEven_intCast] at hR
    have hRq : (roundHalfEven (x / 2 ^ ulpExp x) : ℚ)
        ≤ (((2 : ℤ) ^ (Int.log 2 x + 1 - ulpExp x).toNat : ℤ) : ℚ) := by exact_mod_cast hR
    rw [← two_zpow_eq_intCast _ hk] at hRq
    calc fl x = roundHalfEven (x / 2 ^ ulpExp x) * 2 ^ ulpExp x := rfl
      _ ≤ 2 ^ (Int.log 2 x + 1 - ulpExp x) * 2 ^ ulpExp x :=
          mul_le_mul_of_nonneg_right hRq hupos.le
      _ = 2 ^ (Int.log 2 x + 1) := by
          rw [← zpow_add₀ (by norm_num : (2 : ℚ) ≠ 0)]
          congr 1
          omega
  · have hk1 : Int.log 2 x + 1 - ulpExp x ≤ -1 := by omega
    have hsmall : (2 : ℚ) ^ (Int.log 2 x + 1 - ulpExp x) ≤ 2 ^ (-1 : ℤ) :=
      zpow_le_zpow_right₀ (by norm_num) hk1
    have hhalf : (2 : ℚ) ^ (-1 : ℤ) = 1 / 2 := by norm_num
    have hpos : 0 < x / 2 ^ ulpExp x := div_pos hx hupos
    rw [hhalf] at hsmall
    have hlt : x / 2 ^ ulpExp x < 1 / 2 := lt_of_lt_of_le hdiv hsmall
    have hR : roundHalfEven (x / 2 ^ ulpExp x) = 0 :=
      roundHalfEven_eq_of_near _ 0 (by push_cast; linarith) (by push_cast; linarith)
    have : fl x = 0 := by
      unfold fl
      rw [hR]
      simp
    rw [this]
    exact (two_zpow_pos _).le

theorem two_zpow_le_fl {y : ℚ} (hy : 0 < y) (hnormal : -1074 < Int.log 2 y - 52) :
    2 ^ Int.log 2 y ≤ fl y := by
  have hlo : (2 : ℚ) ^ Int.log 2 y ≤ y := by
    have := Int.zpow_log_le_self (R := ℚ) (b := 2) (by norm_num) hy
    exact_mod_cast this
  have hu : ulpExp y = Int.log 2 y - 52 := by
    rw [ulpExp, abs_of_pos hy]
    exact max_eq_left hnormal.le
  have hupos := two_zpow_pos (ulpExp y)
  have hdiv : (((2 : ℤ) ^ 52 : ℤ) : ℚ) ≤ y / 2 ^ ulpExp y := by
    rw [le_div_iff₀ hupos, hu]
    have : (((2 : ℤ) ^ 52 : ℤ) : ℚ) = (2 : ℚ) ^ (52 : ℤ) := by norm_num
    rw [this, ← zpow_add₀ (by norm_num : (2 : ℚ) ≠ 0)]
    have : (52 : ℤ) + (Int.log 2 y - 52) = Int.log 2 y := by omega
    rw [this]
    exact hlo
  have hR := roundHalfEven_mono hdiv
  rw [roundHalfEven_intCast] at hR
  have hRq : (((2 : ℤ) ^ 52 : ℤ) : ℚ) ≤ (roundHalfEven (y / 2 ^ ulpExp y) : ℚ) := by
    exact_mod_cast hR
  calc (2 : ℚ) ^ Int.log 2 y = (((2 : ℤ) ^ 52 : ℤ) : ℚ) * 2 ^ ulpExp y := by
        have : (((2 : ℤ) ^ 52 : ℤ) : ℚ) = (2 : ℚ) ^ (52 : ℤ) := by norm_num
        rw [this, hu, ← zpow_add₀ (by norm_num : (2 : ℚ) ≠ 0)]
        congr 1
        omega
    _ ≤ roundHalfEven (y / 2 ^ ulpExp y) * 2 ^ ulpExp y :=
        mul_le_mul_of_nonneg_right hRq hupos.le
    _ = fl y := rfl

/-- Rounding to binary64 is monotone on the non-negative numbers. -/
theorem fl_mono {x y : ℚ} (hx : 0 ≤ x) (h : x ≤ y) : fl x ≤ fl y := by
  rcases eq_or_lt_of_le hx with h0 | hpos
  · rw [← h0, fl_zero]
    exact fl_nonneg (le_trans hx h)
  · have hy : 0 < y := lt_of_lt_of_le hpos h
    have hu := ulpExp_mono hpos h
    rcases eq_or_lt_of_le hu with heq | hlt
    · unfold fl
      rw [← heq]
      have hupos := two_zpow_pos (ulpExp x)
      have hR := roundHalfEven_mono (div_le_div_of_nonneg_right h hupos.le)
      exact mul_le_mul_of_nonneg_right (by exact_mod_cast hR) hupos.le
    · have hux : ulpExp x = max (Int.log 2 x - 52) (-1074) := by
        rw [ulpExp, abs_of_pos hpos]
      have huy : ulpExp y = max (Int.log 2 y - 52) (-1074) := by
        rw [ulpExp, abs_of_pos hy]
      have hnormal : -1074 < Int.log 2 y - 52 := by
        rw [hux, huy] at hlt
        rcases max_cases (Int.log 2 y - 52) (-1074) with ⟨h1, _⟩ | ⟨h1, _⟩
        · rw [h1] at hlt
          have := le_max_right (Int.log 2 x - 52) (-1074)
          omega
        · rw [h1] at hlt
          have := le_max_right (Int.log 2 x - 52) (-1074)
          omega
      have hexp : Int.log 2 x + 1 ≤ Int.log 2 y := by
        rw [hux, huy, max_eq_left hnormal.le] at hlt
        have := le_max_left (Int.log 2 x - 52) (-1074)
        omega
      calc fl x ≤ 2 ^ (Int.log 2 x + 1) := fl_le_two_zpow hpos
        _ ≤ 2 ^ Int.log 2 y := zpow_le_zpow_right₀ (by norm_num) hexp
        _ ≤ fl y := two_zpow_le_fl hy hnormal

theorem fl_normal (x : ℚ) (e : ℤ) (hlo : (2 : ℚ) ^ e ≤ x) (hhi : x < 2 ^ (e + 1))
    (hnorm : -1074 ≤ e - 52) :
    fl x = roundHalfEven (x / 2 ^ (e - 52)) * 2 ^ (e - 52) := by
  rw [fl_of_bounds x e hlo hhi, max_eq_left hnorm]

theorem fl_normal_near (x : ℚ) (e n : ℤ) (hlo : (2 : ℚ) ^ e ≤ x) (hhi : x < 2 ^ (e + 1))
    (hnorm : -1074 ≤ e - 52) (h1 : (n : ℚ) - 1 / 2 < x / 2 ^ (e - 52))
    (h2 : x / 2 ^ (e - 52) < n + 1 / 2) : fl x = n * 2 ^ (e - 52) := by
  rw [fl_normal x e hlo hhi hnorm, roundHalfEven_eq_of_near _ n h1 h2]

theorem fl_normal_tie_even (x : ℚ) (e n : ℤ) (hlo : (2 : ℚ) ^ e ≤ x) (hhi : x < 2 ^ (e + 1))
    (hnorm : -1074 ≤ e - 52) (hx : x / 2 ^ (e - 52) = n + 1 / 2) (hn : n % 2 = 0) :
    fl x = n * 2 ^ (e - 52) := by
  rw [fl_normal x e hlo hhi hnorm, roundHalfEven_tie_even n _ hx hn]

theorem fl_normal_tie_odd (x : ℚ) (e n : ℤ) (hlo : (2 : ℚ) ^ e ≤ x) (hhi : x < 2 ^ (e + 1))
    (hnorm : -1074 ≤ e - 52) (hx : x / 2 ^ (e - 52) = n + 1 / 2) (hn : n % 2 = 1) :
    fl x = ((n + 1 : ℤ) : ℚ) * 2 ^ (e - 52) := by
  rw [fl_normal x e hlo hhi hnorm, roundHalfEven_tie_odd n _ hx hn]

/-- The Number written `0.2`. -/
theorem fl_one_fifth : fl (1 / 5) = 3602879701896397 / 18014398509481984 := by
  rw [fl_normal_near (1 / 5) (-3) 7205759403792794 (by norm_num) (by norm_num)
    (by norm_num) (by norm_num) (by norm_num)]
  norm_num

/-- The Number written `0.8`. -/
theorem fl_four_fifths : fl (4 / 5) = 3602879701896397 / 4503599627370496 := by
  rw [fl_normal_near (4 / 5) (-1) 7205759403792794 (by norm_num) (by norm_num)
    (by norm_num) (by norm_num) (by norm_num)]
  norm_num

theorem fl_one : fl 1 = 1 := by
  rw [fl_normal_near 1 0 4503599627370496 (by norm_num) (by norm_num)
    (by norm_num) (by norm_num) (by norm_num)]
  norm_num

theorem fl_half : fl (1 / 2) = 1 / 2 := by
  rw [fl_normal_near (1 / 2) (-1) 4503599627370496 (by norm_num) (by norm_num)
    (by norm_num) (by norm_num) (by norm_num)]
  norm_num

theorem fl_above_half :
    fl (4503599627370497 / 9007199254740992) = 4503599627370497 / 9007199254740992 := by
  rw [fl_normal_near (4503599627370497 / 9007199254740992) (-1) 4503599627370497
    (by norm_num) (by norm_num) (by norm_num) (by norm_num) (by norm_num)]
  norm_num

theorem fl_below_one :
    fl (4503599627370495 / 4503599627370496) = 4503599627370495 / 4503599627370496 := by
  rw [fl_normal_near (4503599627370495 / 4503599627370496) (-1) 9007199254740990
    (by norm_num) (by norm_num) (by norm_num) (by norm_num) (by norm_num)]
  norm_num

theorem fl_d02 :
    fl (3602879701896397 / 18014398509481984) = 3602879701896397 / 18014398509481984 := by
  rw [fl_normal_near (3602879701896397 / 18014398509481984) (-3) 7205759403792794
    (by norm_num) (by norm_num) (by norm_num) (by norm_num) (by norm_num)]
  norm_num

theorem fl_d08 :
    fl (3602879701896397 / 4503599627370496) = 3602879701896397 / 4503599627370496 := by
  rw [fl_normal_near (3602879701896397 / 4503599627370496) (-1) 7205759403792794
    (by norm_num) (by norm_num) (by norm_num) (by norm_num) (by norm_num)]
  norm_num

/-- In binary64, `0.2 + 0.8` is `1`. -/
theorem fl_d02_add_d08 :
    fl (3602879701896397 / 18014398509481984 + 3602879701896397 / 4503599627370496) = 1 := by
  rw [fl_normal_near _ 0 4503599627370496
    (by norm_num) (by norm_num) (by norm_num) (by norm_num) (by norm_num)]
  norm_num

/-- The product `(1 - 2 ^ (-52)) * 0.8` in binary64. -/
theorem fl_below_one_mul_d08 :
    fl (4503599627370495 / 4503599627370496 * (3602879701896397 / 4503599627370496))
      = 900719925474099 / 1125899906842624 := by
  rw [fl_normal_near _ (-1) 7205759403792792
    (by norm_num) (by norm_num) (by norm_num) (by norm_num) (by norm_num)]
  norm_num

/-- The sum `0.2 + (1 - 2 ^ (-52)) * 0.8` in binary64: a tie, rounded to even. -/
theorem fl_d02_add_below :
    fl (3602879701896397 / 18014398509481984 + 900719925474099 / 1125899906842624)
      = 4503599627370495 / 4503599627370496 := by
  rw [fl_normal_tie_even _ (-1) 9007199254740990
    (by norm_num) (by norm_num) (by norm_num) (by norm_num) (by norm_num)]
  norm_num

theorem fl_largest_below_one :
    fl (9007199254740991 / 9007199254740992) = 9007199254740991 / 9007199254740992 := by
  rw [fl_normal_near _ (-1) 9007199254740991
    (by norm_num) (by norm_num) (by norm_num) (by norm_num) (by norm_num)]
  norm_num

theorem fl_largest_below_one_mul_d08 :
    fl (9007199254740991 / 9007199254740992 * (3602879701896397 / 4503599627370496))
      = 7205759403792793 / 9007199254740992 := by
  rw [fl_normal_near _ (-1) 7205759403792793
    (by norm_num) (by norm_num) (by norm_num) (by norm_num) (by norm_num)]
  norm_num

/-- The sum `0.2 + 0.7999999999999999` in binary64: a tie, rounded up to `1`. -/
theorem fl_d02_add_largest :
    fl (3602879701896397 / 18014398509481984 + 7205759403792793 / 9007199254740992) = 1 := by
  rw [fl_normal_tie_odd _ (-1) 9007199254740991
    (by norm_num) (by norm_num) (by norm_num) (by norm_num) (by norm_num)]
  norm_num

/-- The alpha and the text colour of a cell whose value is at most `maxVal`,
for `maxVal` between 1 and `2 ^ 52`. -/
theorem cellStyle_bounds (m v : ℕ) (hm1 : 1 ≤ m) (hm : m ≤ 2 ^ 52) (hv : v ≤ m) :
    1 / 5 ≤ (cellStyle m v).alpha ∧ (cellStyle m v).alpha ≤ 1 ∧
    ((cellStyle m v).alpha = 1 ↔ v = m) ∧
    ((cellStyle m v).white = true ↔ m < 2 * v) := by
  have hmq : (0 : ℚ) < m := by exact_mod_cast hm1
  have hq0 : (0 : ℚ) ≤ (v : ℚ) / m := div_nonneg (by exact_mod_cast Nat.zero_le v) hmq.le
  have hq1 : (v : ℚ) / m ≤ 1 := by
    rw [div_le_one hmq]
    exact_mod_cast hv
  have hQ0 : 0 ≤ fl ((v : ℚ) / m) := fl_nonneg hq0
  have hQ1 : fl ((v : ℚ) / m) ≤ 1 := by
    have := fl_mono hq0 hq1
    rwa [fl_one] at this
  have hd08 : (0 : ℚ) ≤ 3602879701896397 / 4503599627370496 := by norm_num
  have hd02 : (0 : ℚ) ≤ 3602879701896397 / 18014398509481984 := by norm_num
  have hP0 : 0 ≤ fl (fl ((v : ℚ) / m) * (3602879701896397 / 4503599627370496)) :=
    fl_nonneg (mul_nonneg hQ0 hd08)
  have hP1 : fl (fl ((v : ℚ) / m) * (3602879701896397 / 4503599627370496))
      ≤ 3602879701896397 / 4503599627370496 := by
    have := fl_mono (mul_nonneg hQ0 hd08)
      (mul_le_mul_of_nonneg_right hQ1 hd08)
    rwa [one_mul, fl_d08] at this
  have halpha : (cellStyle m v).alpha =
      fl (3602879701896397 / 18014398509481984 +
        fl (fl ((v : ℚ) / m) * (3602879701896397 / 4503599627370496))) := by
    simp only [cellStyle, fl_one_fifth, fl_four_fifths]
  have hlow : 3602879701896397 / 18014398509481984 ≤ (cellStyle m v).alpha := by
    rw [halpha]
    have := fl_mono hd02 (le_add_of_nonneg_right hP0)
    rwa [fl_d02] at this
  have hhigh : (cellStyle m v).alpha ≤ 1 := by
    rw [halpha]
    have := fl_mono (add_nonneg hd02 hP0) (add_le_add_left hP1 _)
    rwa [fl_d02_add_d08] at this
  refine ⟨le_trans (by norm_num) hlow, hhigh, ⟨fun h1 => ?_, fun hvm => ?_⟩, ?_⟩
  · by_contra hne
    have hlt : v + 1 ≤ m := by omega
    have hvq : (v : ℚ) + 1 ≤ m := by exact_mod_cast hlt
    have hmq2 : (m : ℚ) ≤ 4503599627370496 := by exact_mod_cast hm
    have hqt : (v : ℚ) / m ≤ 4503599627370495 / 4503599627370496 := by
      rw [div_le_div_iff₀ hmq (by norm_num)]
      nlinarith
    have hQt : fl ((v : ℚ) / m) ≤ 4503599627370495 / 4503599627370496 := by
      have := fl_mono hq0 hqt
      rwa [fl_below_one] at this
    have hPt : fl (fl ((v : ℚ) / m) * (3602879701896397 / 4503599627370496))
        ≤ 900719925474099 / 1125899906842624 := by
      have := fl_mono (mul_nonneg hQ0 hd08) (mul_le_mul_of_nonneg_right hQt hd08)
      rwa [fl_below_one_mul_d08] at this
    have hat : (cellStyle m v).alpha ≤ 4503599627370495 / 4503599627370496 := by
      rw [halpha]
      have := fl_mono (add_nonneg hd02 hP0) (add_le_add_left hPt _)
      rwa [fl_d02_add_below] at this
    rw [h1] at hat
    norm_num at hat
  · rw [halpha, hvm, div_self hmq.ne', fl_one, one_mul, fl_d08, fl_d02_add_d08]
  · simp only [cellStyle, decide_eq_true_eq]
    constructor
    · intro hw
      by_contra hle
      have hle2 : 2 * v ≤ m := by omega
      have hle2q : 2 * (v : ℚ) ≤ m := by exact_mod_cast hle2
      have hq : (v : ℚ) / m ≤ 1 / 2 := by
        rw [div_le_div_iff₀ hmq (by norm_num)]
        linarith
      have := fl_mono hq0 hq
      rw [fl_half] at this
      linarith
    · intro hlt
      have hnat : 4503599627370497 * m ≤ 9007199254740992 * v := by
        have : m ≤ 4503599627370496 := hm
        omega
      have hnatq : (4503599627370497 : ℚ) * m ≤ 9007199254740992 * v := by
        exact_mod_cast hnat
      have hq : (4503599627370497 : ℚ) / 9007199254740992 ≤ (v : ℚ) / m := by
        rw [div_le_div_iff₀ (by norm_num) hmq]
        linarith
      have := fl_mono (by norm_num) hq
      rw [fl_above_half] at this
      have : (1 : ℚ) / 2 < 4503599627370497 / 9007199254740992 := by norm_num
      linarith

theorem le_maxVal (tn fp fn tp : ℕ) :
    1 ≤ maxVal tn fp fn tp ∧ tn ≤ maxVal tn fp fn tp ∧ fp ≤ maxVal tn fp fn tp ∧
    fn ≤ maxVal tn fp fn tp ∧ tp ≤ maxVal tn fp fn tp := by
  unfold maxVal
  refine ⟨?_, ?_, ?_, ?_, ?_⟩ <;> omega

/-- C29 (amended): for a 2x2 matrix of counts of at most `2 ^ 52`, the
component renders with `maxVal` the largest of the four counts and 1, so at
least 1, and for each cell the alpha of the background lies between 0.2 and 1,
is 1 exactly when the cell's value is `maxVal`, and the text is white exactly
when twice the value exceeds `maxVal`. -/
theorem C29_cell_style (tn fp fn tp : ℕ) (htn : tn ≤ 2 ^ 52) (hfp : fp ≤ 2 ^ 52)
    (hfn : fn ≤ 2 ^ 52) (htp : tp ≤ 2 ^ 52) :
    ConfusionMatrixHeatmap (some [[tn, fp], [fn, tp]]) =
      some { tn := some tn, fp := some fp, fn := some fn, tp := some tp,
             maxVal := some (maxVal tn fp fn tp) } ∧
    1 ≤ maxVal tn fp fn tp ∧
    ∀ value ∈ [tn, fp, fn, tp],
      1 / 5 ≤ (cellStyle (maxVal tn fp fn tp) value).alpha ∧
      (cellStyle (maxVal tn fp fn tp) value).alpha ≤ 1 ∧
      ((cellStyle (maxVal tn fp fn tp) value).alpha = 1 ↔ value = maxVal tn fp fn tp) ∧
      ((cellStyle (maxVal tn fp fn tp) value).white = true ↔
        maxVal tn fp fn tp < 2 * value) := by
  obtain ⟨h1, h2, h3, h4, h5⟩ := le_maxVal tn fp fn tp
  have hmax : maxVal tn fp fn tp ≤ 2 ^ 52 := by
    unfold maxVal
    have : 1 ≤ 2 ^ 52 := by norm_num
    omega
  refine ⟨rfl, h1, ?_⟩
  intro value hvalue
  simp only [List.mem_cons, List.mem_singleton, List.not_mem_nil, or_false] at hvalue
  rcases hvalue with rfl | rfl | rfl | rfl
  · exact cellStyle_bounds _ _ h1 hmax h2
  · exact cellStyle_bounds _ _ h1 hmax h3
  · exact cellStyle_bounds _ _ h1 hmax h4
  · exact cellStyle_bounds _ _ h1 hmax h5

/-- C29 on the matrix `[[50, 10], [5, 35]]`. -/
theorem C29_cell_style_witness :
    (50 ≤ 2 ^ 52 ∧ 10 ≤ 2 ^ 52 ∧ 5 ≤ 2 ^ 52 ∧ 35 ≤ 2 ^ 52) ∧
    (cellStyle (maxVal 50 10 5 35) 50).alpha ≤ 1 ∧
    ((cellStyle (maxVal 50 10 5 35) 35).white = true ↔ maxVal 50 10 5 35 < 2 * 35) :=
  have h := (C29_cell_style 50 10 5 35 (by norm_num) (by norm_num) (by norm_num)
    (by norm_num)).2.2
  ⟨⟨by norm_num, by norm_num, by norm_num, by norm_num⟩,
   (h 50 (by simp)).2.1, (h 35 (by simp)).2.2.2⟩

/-- C29 as stated fails: in the matrix `[[2 ^ 53 - 1, 0], [0, 2 ^ 53]]` the
value `2 ^ 53 - 1` is not `maxVal`, yet its alpha is 1. -/
theorem C29_counterexample_large_counts :
    maxVal 9007199254740991 0 0 9007199254740992 = 9007199254740992 ∧
    (cellStyle (maxVal 9007199254740991 0 0 9007199254740992) 9007199254740991).alpha = 1 ∧
    (9007199254740991 : ℕ) ≠ maxVal 9007199254740991 0 0 9007199254740992 := by
  have hmax : maxVal 9007199254740991 0 0 9007199254740992 = 9007199254740992 := by decide
  refine ⟨hmax, ?_, by rw [hmax]; decide⟩
  rw [hmax]
  simp only [cellStyle, fl_one_fifth, fl_four_fifths]
  have hq : ((9007199254740991 : ℕ) : ℚ) / ((9007199254740992 : ℕ) : ℚ)
      = 9007199254740991 / 9007199254740992 := by norm_num
  rw [hq, fl_largest_below_one, fl_largest_below_one_mul_d08, fl_d02_add_largest]

/-! ## The builders on sample data -/

theorem mathRound_eq_of_near (y : ℚ) (k : ℤ) (h1 : (k : ℚ) - 1 / 2 ≤ y)
    (h2 : y < k + 1 / 2) : mathRound y = k := by
  unfold mathRound
  rw [Int.floor_eq_iff]
  constructor <;> linarith

/-- In binary64, `Math.round(0.30078125 * 1000) / 1000` is `0.301`. -/
theorem round3_example : round3 (77 / 256) = 5422333951354077 / 18014398509481984 := by
  have hprod : (77 / 256 : ℚ) * 1000 = 9625 / 32 := by norm_num
  have hfl : fl (9625 / 32) = 9625 / 32 := by
    rw [fl_normal_near (9625 / 32) 8 5291399708672000 (by norm_num) (by norm_num)
      (by norm_num) (by norm_num) (by norm_num)]
    norm_num
  have hround : mathRound (9625 / 32) = 301 :=
    mathRound_eq_of_near _ 301 (by norm_num) (by norm_num)
  rw [round3, hprod, hfl, hround]
  rw [fl_normal_near _ (-2) 5422333951354077 (by norm_num) (by norm_num)
    (by norm_num) (by norm_num) (by norm_num)]
  norm_num

/-- In binary64, `Math.round(0.70703125 * 100) / 100` is `0.71`. -/
theorem round2_example : round2 (181 / 256) = 799388933858263 / 1125899906842624 := by
  have hprod : (181 / 256 : ℚ) * 100 = 4525 / 64 := by norm_num
  have hfl : fl (4525 / 64) = 4525 / 64 := by
    rw [fl_normal_near (4525 / 64) 6 4975290115686400 (by norm_num) (by norm_num)
      (by norm_num) (by norm_num) (by norm_num)]
    norm_num
  have hround : mathRound (4525 / 64) = 71 :=
    mathRound_eq_of_near _ 71 (by norm_num) (by norm_num)
  rw [round2, hprod, hfl, hround]
  rw [fl_normal_near _ (-1) 6395111470866104 (by norm_num) (by norm_num)
    (by norm_num) (by norm_num) (by norm_num)]
  norm_num

/-- C26 on three features: all three are returned, in order of non-increasing
value, and the value `0.30078125` of `A9_Score` appears as `0.301`. -/
theorem C26_feature_importance_witness :
    (buildFeatureImportanceData (FeatureInput.object sampleFeatures)).length = min 12 3 ∧
    (buildFeatureImportanceData (FeatureInput.object sampleFeatures)).Sorted
      (fun a b => b.value ≤ a.value) ∧
    (∃ k : ℤ, round3 (77 / 256) = fl ((k : ℚ) / 1000) ∧
      |(k : ℚ) - 77 / 256 * 1000| ≤ 1 / 2 + (|(77 / 256 : ℚ) * 1000| / 2 ^ 53 + 2 ^ (-1075 : ℤ)) ∧
      |round3 (77 / 256) - (k : ℚ) / 1000|
        ≤ |(k : ℚ) / 1000| / 2 ^ 53 + 2 ^ (-1075 : ℤ)) ∧
    round3 (77 / 256) = 5422333951354077 / 18014398509481984 :=
  ⟨(C26_feature_importance sampleFeatures).2.2.1,
   (C26_feature_importance sampleFeatures).2.2.2.1,
   (C26_feature_importance sampleFeatures).2.2.2.2.2.2 (77 / 256),
   round3_example⟩

/-- C27 on three assessments returned oldest first: they are shown newest
first. -/
theorem C27_history_newest_first_witness :
    (∀ a ∈ sampleHistory, a.timeValue ≠ none) ∧
    (fetchAssessments (some sampleHistory)).assessments.Perm sampleHistory ∧
    (fetchAssessments (some sampleHistory)).assessments.map (fun a => a.id) = ["b", "c", "a"] :=
  have hvalid : ∀ a ∈ sampleHistory, a.timeValue ≠ none := by decide
  ⟨hvalid, (C27_history_newest_first sampleHistory hvalid).1, by decide⟩

/-- C28 on a test-metrics object without `recall`: the Recall row has `test` 0. -/
theorem C28_metrics_chart_witness :
    sampleMetrics "recall" = none ∧ round3 ((sampleMetrics "recall").getD 0) = 0 :=
  have hmissing : sampleMetrics "recall" = none := by decide
  ⟨hmissing, (C28_metrics_chart sampleMetrics none).2.2.2.2.1 "recall" hmissing⟩

/-- C30 on three `fpr` values and one `tpr` value: the second point has the
`fpr` `0.70703125` rounded to `0.71`, and `tpr` 0. -/
theorem C30_roc_data_witness :
    ([0, 181 / 256, 1] : List ℚ)[1]? = some (181 / 256) ∧ ([0] : List ℚ).length ≤ 1 ∧
    (buildRocData (some { fpr := some [0, 181 / 256, 1], tpr := some [0] }))[1]? =
      some ({ fpr := 799388933858263 / 1125899906842624, tpr := 0 } : RocPoint) :=
  ⟨rfl, by decide,
   round2_example ▸
    (C30_roc_data [0, 181 / 256, 1] [0]).2.2.2.2.2.1 1 (181 / 256) rfl (by decide)⟩

end ASD
